import Mathlib

/-!
Verification of the telemetry-grid engine (backend/telem_engine.py and
backend/api.py): a shallow embedding of the grid data model, the table
locator, the in-place schema mutator, the crew-weight resolver, the piece
row classifier, the section-marker normalizer and the sanitizer, together
with proofs of the specification's claims about them.

A grid is a list of rows, each a list of text cells.  The Python code
mutates the grid in place; here every mutating pass is an explicit grid
transformation, and `apply_updatesRun` returns the final grid state
together with an optional error message (mirroring an exception raised
mid-mutation, which leaves the already-performed writes in the grid).
-/

abbrev Row := List String
abbrev Grid := List (List String)

/-! ### String primitives (Python semantics, executable on character lists) -/

/-- ASCII whitespace, matching the characters Python's str.strip removes on
ASCII input. -/
def isWS (c : Char) : Bool :=
  c = ' ' || c = '\t' || c = '\n' || c = '\r' || c.toNat = 11 || c.toNat = 12

/-- Python s.strip(): drop whitespace from both ends. -/
def pyStrip (s : String) : String :=
  ⟨((s.data.dropWhile isWS).reverse.dropWhile isWS).reverse⟩

/-- Lowercase one ASCII character. -/
def lowerCh (c : Char) : Char :=
  if 'A' ≤ c && c ≤ 'Z' then Char.ofNat (c.toNat + 32) else c

/-- Python s.lower() on ASCII text. -/
def pyLower (s : String) : String :=
  ⟨s.data.map lowerCh⟩

/-- Is `p` a prefix of `l`. -/
def listPref : List Char → List Char → Bool
  | [], _ => true
  | _ :: _, [] => false
  | a :: as, b :: bs => a = b && listPref as bs

/-- Python s.startswith(pre). -/
def pyStartsWith (s pre : String) : Bool :=
  listPref pre.data s.data

/-- Does `p` occur as a contiguous sublist of the second argument. -/
def occL (p : List Char) : List Char → Bool
  | [] => listPref p []
  | c :: t => listPref p (c :: t) || occL p t

/-- Python `pat in s` (substring containment). -/
def containsSub (s pat : String) : Bool :=
  occL pat.data s.data

/-- Remove every occurrence of "=====" (left to right, non-overlapping),
as Python's first.replace("=====", "") does. -/
def remEq5 : List Char → List Char
  | '=' :: '=' :: '=' :: '=' :: '=' :: rest => remEq5 rest
  | c :: rest => c :: remEq5 rest
  | [] => []

/-- String form of `remEq5`. -/
def removeEq5 (s : String) : String :=
  ⟨remEq5 s.data⟩

/-- ASCII digit test. -/
def isDigitCh (c : Char) : Bool :=
  48 ≤ c.toNat && c.toNat ≤ 57

/-- Python s.isdigit() on ASCII text: non-empty and all digits. -/
def pyIsDigit (s : String) : Bool :=
  !s.data.isEmpty && s.data.all isDigitCh

/-- Python int(s) for a digit string. -/
def strToNat (s : String) : Nat :=
  s.data.foldl (fun n c => n * 10 + (c.toNat - 48)) 0

/-! ### List primitives -/

/-- Apply `f` to the element at index `i`, when it exists. -/
def modifyIdx {α : Type} (f : α → α) : Nat → List α → List α
  | _, [] => []
  | 0, x :: xs => f x :: xs
  | n + 1, x :: xs => x :: modifyIdx f n xs

/-- Overwrite the element at index `i`, when it exists. -/
def setIdx {α : Type} (i : Nat) (v : α) (l : List α) : List α :=
  modifyIdx (fun _ => v) i l

/-- Python list.insert(n, a): insert before index `n`, appending when `n`
is past the end. -/
def insertPy {α : Type} : Nat → α → List α → List α
  | 0, a, l => a :: l
  | _ + 1, a, [] => [a]
  | n + 1, a, x :: xs => x :: insertPy n a xs

/-- Apply a row transformation to every row index in [start, start+fuel),
modelling `for r in range(start, start+fuel): rows[r] = f(rows[r])`. -/
def rangeMap (f : Row → Row) : Nat → Nat → Grid → Grid
  | 0, _, g => g
  | fuel + 1, r, g => rangeMap f fuel (r + 1) (modifyIdx f r g)

/-! ### Engine helpers (telem_engine.py) -/

/-- pad_row: extend `row` with empty cells up to length `min_len`. -/
def pad_row (row : Row) (min_len : Nat) : Row :=
  row ++ List.replicate (min_len - row.length) ""

/-- is_section_header_row: first cell, stripped, starts with "=====". -/
def is_section_header_row (row : Row) : Bool :=
  pyStartsWith (pyStrip (row.headD "")) "====="

/-- First cell index in `row` whose stripped text equals `target`. -/
def cellIdx (target : String) : Row → Option Nat
  | [] => none
  | cell :: rest =>
    if pyStrip cell = target then some 0 else (cellIdx target rest).map (· + 1)

/-- Row-major scan used by find_first_cell. -/
def findCellRows (target : String) : List Row → Option (Nat × Nat)
  | [] => none
  | row :: rest =>
    match cellIdx target row with
    | some c => some (0, c)
    | none => (findCellRows target rest).map (fun rc => (rc.1 + 1, rc.2))

/-- find_first_cell: first (row, column) whose stripped cell equals `target`. -/
def find_first_cell (rows : Grid) (target : String) : Option (Nat × Nat) :=
  findCellRows target rows

/-- Lookup in the dict built by header_col_map (keys are stripped non-blank
cells).  The Python dict comprehension overwrites on duplicate keys, so the
LAST index with a matching stripped cell wins. -/
def header_col_get (name : String) : Row → Option Nat
  | [] => none
  | c :: cs =>
    match header_col_get name cs with
    | some j => some (j + 1)
    | none => if pyStrip c = name && name ≠ "" then some 0 else none

/-- Does the row's set of stripped non-blank cells contain every name in
`names` (all names used are non-blank)? -/
def sigHasAll (names : List String) (row : Row) : Bool :=
  names.all (fun n => row.any (fun c => pyStrip c = n))

/-- Required column names of the Piece table header. -/
def pieceHdrNames : List String := ["Pace", "comment", "Wind", "Stream", "Validated"]

/-- Required column names of the Crew Info table header. -/
def crewNames : List String := ["Position", "Name", "Abbr", "Weight"]

/-- Scan for the Piece header row from a given row index. -/
def findPieceHeaderFrom : Nat → List Row → Option Nat
  | _, [] => none
  | r, row :: rest =>
    if sigHasAll pieceHdrNames row then some r else findPieceHeaderFrom (r + 1) rest

/-- find_piece_header_row: first row containing Pace/comment/Wind/Stream/Validated. -/
def find_piece_header_row (rows : Grid) : Option Nat :=
  findPieceHeaderFrom 0 rows

/-- Scan forward until a section header row ("=====" prefix) or end of grid. -/
def scanSectionEnd (rows : Grid) : Nat → Nat → Nat
  | 0, e => e
  | f + 1, e =>
    if is_section_header_row (rows.getD e []) then e else scanSectionEnd rows f (e + 1)

/-- find_table_bounds_from_header: (start, end) of the data region below a
header row; end is the next section header row or end of grid. -/
def find_table_bounds_from_header (rows : Grid) (header_r : Nat) : Nat × Nat :=
  let start := header_r + 1
  (start, scanSectionEnd rows (rows.length - start) start)

/-- Crew-table end scan: stops at a section header row or at a row whose
first cell, stripped and lowercased, is "cox" or "coach". -/
def scanCrewEnd (rows : Grid) : Nat → Nat → Nat
  | 0, e => e
  | f + 1, e =>
    let row := rows.getD e []
    if is_section_header_row row then e
    else if pyLower (pyStrip (row.headD "")) = "cox" ||
            pyLower (pyStrip (row.headD "")) = "coach" then e
    else scanCrewEnd rows f (e + 1)

/-- Header scan for find_crew_info_table. -/
def findCrewFrom (rows : Grid) : Nat → List Row → Option (Nat × Nat × Nat × Row)
  | _, [] => none
  | r, row :: rest =>
    if sigHasAll crewNames row then
      some (r, r + 1, scanCrewEnd rows (rows.length - (r + 1)) (r + 1), row)
    else findCrewFrom rows (r + 1) rest

/-- find_crew_info_table: (header row index, data start, data end exclusive,
header row).  The header row stands for the returned column map; lookups go
through `header_col_get`. -/
def find_crew_info_table (rows : Grid) : Option (Nat × Nat × Nat × Row) :=
  findCrewFrom rows 0 rows

/-- PACE_LIKE on one line of text: a ':' immediately followed by two digits. -/
def hasColonDD : List Char → Bool
  | [] => false
  | c :: rest =>
    (c = ':' && (match rest with
                 | d1 :: d2 :: _ => isDigitCh d1 && isDigitCh d2
                 | _ => false)) || hasColonDD rest

/-- PACE_LIKE.match(s): the regex `.*:\d{2}.*` (with `.` not crossing a
newline) accepts s iff, before the first newline, a colon occurs followed
immediately by two digits. -/
def paceLike (s : String) : Bool :=
  hasColonDD (s.data.takeWhile (fun c => c ≠ '\n'))

/-- Helper for `specPaceShaped`. -/
def specPaceAux : List Char → Bool
  | a :: b :: c :: rest => (isDigitCh a && b = ':' && isDigitCh c) || specPaceAux (b :: c :: rest)
  | _ => false

/-- Modelled from the spec's words, for refinement comparison with
`paceLike`: a minutes:seconds-like value, i.e. the text contains a colon
flanked by digits (a digit, then ':', then a digit). -/
def specPaceShaped (s : String) : Bool :=
  specPaceAux s.data

/-! ### Export normalizer and sanitizer (api.py) -/

/-- File Info header signature used by trim_to_first_export and the
bare-marker inference. -/
def fileInfoNames : List String := ["Serial #", "Session", "Filename", "Start Time"]

/-- GPS Info header signature. -/
def gpsNames : List String := ["Lat", "Lon", "UTC", "PeachTime"]

/-- Full Piece header signature used by the bare-marker inference. -/
def pieceFullNames : List String :=
  ["Start", "End", "#", "Duration", "Distance", "Rating", "Pace", "comment", "Wind", "Stream", "Validated"]

/-- Is this row a File Info header row (signature superset check)? -/
def fileInfoHit (row : Row) : Bool :=
  sigHasAll fileInfoNames row

/-- trim_to_first_export: if the File Info header signature occurs twice or
more, keep only the rows strictly before (second occurrence - 1). -/
def trim_to_first_export (rows : Grid) : Grid :=
  let hits := (List.range rows.length).filter (fun i => fileInfoHit (rows.getD i []))
  if hits.length ≤ 1 then rows else rows.take (hits.getD 1 0 - 1)

/-- normalize_section_markers on one row: rewrite "=====" style markers to
"#ERROR!" form; leave rows already in "#ERROR!" form (and everything else)
unchanged. -/
def normRow (row : Row) : Row :=
  if row.isEmpty then row
  else
    let first := pyStrip (row.headD "")
    if first = "=====" then setIdx 0 "#ERROR!" row
    else if pyStartsWith first "=====" && !containsSub first "," then
      ["#ERROR!", pyStrip (removeEq5 first)]
    else row

/-- normalize_section_markers. -/
def normalize_section_markers (rows : Grid) : Grid :=
  rows.map normRow

/-- Does the row contain a non-blank cell (Python's `any(str(c).strip() ...)`). -/
def rowNonblank (row : Row) : Bool :=
  row.any (fun c => pyStrip c ≠ "")

/-- A bare marker row: first cell strips to "#ERROR!" and there is no
non-blank second cell. -/
def isBareMarker (row : Row) : Bool :=
  pyStrip (row.headD "") = "#ERROR!" && pyStrip (row.getD 1 "") = ""

/-- Inference of a bare marker's section name from the next non-blank row. -/
def inferMarker (nr : Row) : Option Row :=
  if sigHasAll fileInfoNames nr then some ["#ERROR!", "File Info"]
  else if sigHasAll gpsNames nr then some ["#ERROR!", "GPS Info"]
  else if sigHasAll crewNames nr then some ["#ERROR!", "Crew Info"]
  else if sigHasAll pieceFullNames nr then some ["#ERROR!", "Piece"]
  else if nr.any (fun c => containsSub c "Aperiodic") &&
          nr.any (fun c => containsSub c "0x800A") then
    some ["#ERROR!", "Aperiodic", "0x800A"]
  else if nr.any (fun c => containsSub c "Periodic") then some ["#ERROR!", "Periodic"]
  else none

/-- label_bare_error_markers on one row, given the rows after it (the scan
for the next non-blank row only looks below, at rows the pass has not yet
rewritten). -/
def labelRow (row : Row) (rest : List Row) : Row :=
  if isBareMarker row then
    match rest.find? rowNonblank with
    | none => row
    | some nr => (inferMarker nr).getD row
  else row

/-- label_bare_error_markers. -/
def label_bare_error_markers : Grid → Grid
  | [] => []
  | r :: rs => labelRow r rs :: label_bare_error_markers rs

/-- The marker-canonicalization step of the pipeline:
normalize_section_markers followed by label_bare_error_markers. -/
def canonMarkers (rows : Grid) : Grid :=
  label_bare_error_markers (normalize_section_markers rows)

/-- Cell sanitizer from api.py: replace every comma with a space, remove
every double quote. -/
def sanCell (s : String) : String :=
  ⟨(s.data.map (fun c => if c = ',' then ' ' else c)).filter (fun c => c ≠ '"')⟩

/-- Grid sanitizer from api.py (models the naive-split sanitizer applied to
every cell of every row). -/
def sanitize_for_naive_split (rows : Grid) : Grid :=
  rows.map (fun row => row.map sanCell)

/-! ### Schema mutator (telem_engine.py) -/

/-- Error message of _ensure_column_between. -/
def cannotInsertBetweenMsg (new_col_name left_col_name right_col_name : String) : String :=
  "Cannot insert " ++ new_col_name ++ ": missing " ++ left_col_name ++ " or " ++
    right_col_name ++ " in Piece header."

/-- Error message of _ensure_column_after. -/
def cannotInsertAfterMsg (new_col_name anchor_col_name : String) : String :=
  "Cannot insert " ++ new_col_name ++ ": missing " ++ anchor_col_name ++ " in Piece header."

/-- One row of the insertion loop: pad to the insertion index, then insert a
blank cell there. -/
def insertBlankAt (insert_at : Nat) (row : Row) : Row :=
  insertPy insert_at "" (pad_row row insert_at)

/-- The shared insertion loop of both ensure-column variants: insert a blank
cell at `insert_at` into every row in [header_r, table_end), then set the
header cell at `insert_at` to the new column name. -/
def insertColumnAt (rows : Grid) (header_r table_end insert_at : Nat) (new_col_name : String) : Grid :=
  modifyIdx (setIdx insert_at new_col_name) header_r
    (rangeMap (insertBlankAt insert_at) (table_end - header_r) header_r rows)

/-- _ensure_column_between: reuse an existing column, otherwise insert a new
one immediately right of the left anchor (both anchors must exist). -/
def ensure_column_between (rows : Grid) (header_r table_start table_end : Nat)
    (left_col_name new_col_name right_col_name : String) : Except String (Grid × Nat) :=
  let _ := table_start
  let header := rows.getD header_r []
  match header_col_get new_col_name header with
  | some i => .ok (rows, i)
  | none =>
    match header_col_get left_col_name header, header_col_get right_col_name header with
    | some left_idx, some _right_idx =>
      .ok (insertColumnAt rows header_r table_end (left_idx + 1) new_col_name, left_idx + 1)
    | _, _ => .error (cannotInsertBetweenMsg new_col_name left_col_name right_col_name)

/-- _ensure_column_after: reuse an existing column, otherwise insert a new
one immediately right of the single anchor. -/
def ensure_column_after (rows : Grid) (header_r table_end : Nat)
    (anchor_col_name new_col_name : String) : Except String (Grid × Nat) :=
  let header := rows.getD header_r []
  match header_col_get new_col_name header with
  | some i => .ok (rows, i)
  | none =>
    match header_col_get anchor_col_name header with
    | some anchor_idx =>
      .ok (insertColumnAt rows header_r table_end (anchor_idx + 1) new_col_name, anchor_idx + 1)
    | none => .error (cannotInsertAfterMsg new_col_name anchor_col_name)

/-! ### Crew weight resolver (apply_updates steps 1-2) -/

/-- Error messages of apply_updates. -/
def coxErrMsg : String := "Could not find a cell named exactly \"Cox\"."

/-- Crew table not found. -/
def crewTableErrMsg : String := "Could not locate Crew Info table (Position/Name/Abbr/Weight)."

/-- Crew table found but Abbr/Weight missing from the column map. -/
def crewColsErrMsg : String := "Crew Info table missing Abbr or Weight column."

/-- Piece header not found. -/
def pieceHdrErrMsg : String := "Could not find Piece header row containing Pace/comment/Wind/Stream/Validated."

/-- A dict read `cols[k]` on a missing key (unreachable after the ensure
steps, but modelled for fidelity). -/
def keyErrMsg (k : String) : String := "KeyError: " ++ k

/-- Missing-weight error naming the seat. -/
def missingWeightMsg (pos : String) : String :=
  "Missing weight for seat " ++ pos ++ " in Crew Info. Fill seats 1–8."

/-- The Cox write: pad row `cox_r` to length `cox_c + 3` and write the cox
identifier two cells right of the "Cox" cell. -/
def coxWrite (rows : Grid) (cox_r cox_c : Nat) (cox_uni : String) : Grid :=
  modifyIdx (fun row => setIdx (cox_c + 2) cox_uni (pad_row row (cox_c + 3))) cox_r rows

/-- One row of the weight-write loop: for a seat row (digit first cell,
value 1-8), pad to the Weight column, resolve the weight by identifier
first, then by the pos_ key, and write it when non-blank.
Out-of-range reads yield "" (Python would raise IndexError there; reachable
only when the Abbr column lies beyond the Weight column on a short row). -/
def crewRowUpdate (wget : String → Option String) (abbr_c weight_c : Nat) (row : Row) : Row :=
  if row.isEmpty then row
  else
    let pos := pyStrip (row.headD "")
    if !pyIsDigit pos then row
    else if strToNat pos < 1 || 8 < strToNat pos then row
    else
      let row1 := pad_row row (weight_c + 1)
      let abbr := pyLower (pyStrip (row1.getD abbr_c ""))
      let w := match wget abbr with
               | none => wget ("pos_" ++ pos)
               | some v => if pyStrip v = "" then wget ("pos_" ++ pos) else some v
      match w with
      | none => row1
      | some v => if pyStrip v = "" then row1 else setIdx weight_c (pyStrip v) row1

/-- The weight-write pass over the crew table's data rows. -/
def crewWeightPass (rows : Grid) (crew_start crew_end abbr_c weight_c : Nat)
    (wget : String → Option String) : Grid :=
  rangeMap (crewRowUpdate wget abbr_c weight_c) (crew_end - crew_start) crew_start rows

/-- The completeness re-scan: pad each seat row to the Weight column and
fail on the first seat row whose Weight cell is still blank.  The grid
state (pads applied so far) is returned alongside the optional error. -/
def crewCheckLoop (weight_c : Nat) : Nat → Nat → Grid → Grid × Option String
  | 0, _, g => (g, none)
  | fuel + 1, r, g =>
    let row := g.getD r []
    if row.isEmpty then crewCheckLoop weight_c fuel (r + 1) g
    else
      let pos := pyStrip (row.headD "")
      if !pyIsDigit pos then crewCheckLoop weight_c fuel (r + 1) g
      else if strToNat pos < 1 || 8 < strToNat pos then crewCheckLoop weight_c fuel (r + 1) g
      else
        let g' := modifyIdx (fun rr => pad_row rr (weight_c + 1)) r g
        if pyStrip ((pad_row row (weight_c + 1)).getD weight_c "") = "" then
          (g', some (missingWeightMsg pos))
        else crewCheckLoop weight_c fuel (r + 1) g'

/-- The completeness re-scan over the crew table's data rows. -/
def crewCheckRun (g : Grid) (crew_start crew_end weight_c : Nat) : Grid × Option String :=
  crewCheckLoop weight_c (crew_end - crew_start) crew_start g

/-- Step 2 of apply_updates: locate the crew table, write weights, re-scan
for completeness. -/
def crewStage (g : Grid) (wget : String → Option String) : Grid × Option String :=
  match find_crew_info_table g with
  | none => (g, some crewTableErrMsg)
  | some (_crew_header_r, crew_start, crew_end, crew_hdr) =>
    match header_col_get "Abbr" crew_hdr, header_col_get "Weight" crew_hdr with
    | some abbr_c, some weight_c =>
      crewCheckRun (crewWeightPass g crew_start crew_end abbr_c weight_c wget)
        crew_start crew_end weight_c
    | _, _ => (g, some crewColsErrMsg)

/-! ### Piece row classifier and writer (apply_updates step 3) -/

/-- The highest column index referenced by the metadata writes,
max(comment_c, zone_c, wind_c, stream_c, temp_c). -/
def pieceMaxIdx (comment_c zone_c wind_c stream_c temp_c : Nat) : Nat :=
  max comment_c (max zone_c (max wind_c (max stream_c temp_c)))

/-- The Pace cell read: the stripped cell under the Pace column when that
column exists in the map, else "". -/
def pieceReadPace (pace_idx : Option Nat) (row1 : Row) : String :=
  match pace_idx with
  | some pi => pyStrip (row1.getD pi "")
  | none => ""

/-- The five metadata writes of one piece row, in source order: comment,
Zone, Wind, Stream, Temperature. -/
def pieceFiveWrites (comment_c zone_c wind_c stream_c temp_c : Nat)
    (rig_info zone wind stream temperature : String) (row1 : Row) : Row :=
  setIdx temp_c temperature (setIdx stream_c stream (setIdx wind_c wind
    (setIdx zone_c zone (setIdx comment_c rig_info row1))))

/-- One row of the piece metadata loop: skip empty and all-blank rows, pad
to the highest referenced column, and write the five metadata cells exactly
when the Pace cell is non-blank and pace-like. -/
def pieceRowUpdate (pace_idx : Option Nat) (comment_c zone_c wind_c stream_c temp_c : Nat)
    (rig_info zone wind stream temperature : String) (row : Row) : Row :=
  if row.isEmpty then row
  else if !rowNonblank row then row
  else
    let row1 := pad_row row (pieceMaxIdx comment_c zone_c wind_c stream_c temp_c + 1)
    let pace_val := pieceReadPace pace_idx row1
    if pace_val = "" || !paceLike pace_val then row1
    else pieceFiveWrites comment_c zone_c wind_c stream_c temp_c
      rig_info zone wind stream temperature row1

/-- The piece metadata write pass over the piece table's data rows. -/
def pieceWritePass (rows : Grid) (table_start table_end : Nat) (pace_idx : Option Nat)
    (comment_c zone_c wind_c stream_c temp_c : Nat)
    (rig_info zone wind stream temperature : String) : Grid :=
  rangeMap
    (pieceRowUpdate pace_idx comment_c zone_c wind_c stream_c temp_c
      rig_info zone wind stream temperature)
    (table_end - table_start) table_start rows

/-- Step 3 of apply_updates: locate the piece table, ensure the Zone and
Temperature columns, rebuild the column map and run the metadata writes. -/
def pieceStage (g : Grid) (rig_info wind stream temperature zone : String) : Grid × Option String :=
  match find_piece_header_row g with
  | none => (g, some pieceHdrErrMsg)
  | some piece_header_r =>
    let bounds := find_table_bounds_from_header g piece_header_r
    match ensure_column_between g piece_header_r bounds.1 bounds.2 "comment" "Zone" "Wind" with
    | .error e => (g, some e)
    | .ok (g1, zone_c) =>
      match ensure_column_after g1 piece_header_r bounds.2 "Validated" "Temperature" with
      | .error e => (g1, some e)
      | .ok (g2, temp_c) =>
        let hdr := g2.getD piece_header_r []
        match header_col_get "comment" hdr, header_col_get "Wind" hdr,
              header_col_get "Stream" hdr with
        | some comment_c, some wind_c, some stream_c =>
          (pieceWritePass g2 bounds.1 bounds.2 (header_col_get "Pace" hdr)
            comment_c zone_c wind_c stream_c temp_c rig_info zone wind stream temperature,
           none)
        | none, _, _ => (g2, some (keyErrMsg "comment"))
        | _, none, _ => (g2, some (keyErrMsg "Wind"))
        | _, _, none => (g2, some (keyErrMsg "Stream"))

/-! ### apply_updates and the commit pipeline -/

/-- Steps 2-3 of apply_updates, run on the grid after the Cox write. -/
def afterCoxStage (g : Grid) (rig_info wind stream temperature zone : String)
    (wget : String → Option String) : Grid × Option String :=
  match crewStage g wget with
  | (g1, some e) => (g1, some e)
  | (g1, none) => pieceStage g1 rig_info wind stream temperature zone

/-- apply_updates with explicit mutation state: returns the final grid
state (including mutations performed before a failure) and the optional
error message of the exception raised. -/
def apply_updatesRun (rows : Grid) (cox_uni rig_info wind stream temperature zone : String)
    (wget : String → Option String) : Grid × Option String :=
  match find_first_cell rows "Cox" with
  | none => (rows, some coxErrMsg)
  | some (cox_r, cox_c) =>
    afterCoxStage (coxWrite rows cox_r cox_c cox_uni) rig_info wind stream temperature zone wget

/-- apply_updates as seen by a caller: the updated grid on success, the
raised error otherwise (no grid is returned then). -/
def apply_updates (rows : Grid) (cox_uni rig_info wind stream temperature zone : String)
    (wget : String → Option String) : Except String Grid :=
  match apply_updatesRun rows cox_uni rig_info wind stream temperature zone wget with
  | (g, none) => .ok g
  | (_, some e) => .error e

/-- Maximum row length of a grid (0 for the empty grid). -/
def maxLen (g : Grid) : Nat :=
  g.foldr (fun r acc => max r.length acc) 0

/-- The grid transformation of the /process endpoint: trim to the first
export, canonicalize markers, apply_updates, canonicalize again, sanitize,
and pad all rows to the maximum length.  Filename derivation is omitted: it
never touches the grid and can only abort the request. -/
def processGrid (rows : Grid) (cox_uni rig_info wind stream temperature zone : String)
    (wget : String → Option String) : Except String Grid :=
  let rows1 := canonMarkers (trim_to_first_export rows)
  match apply_updates rows1 cox_uni rig_info wind stream temperature zone wget with
  | .error e => .error e
  | .ok u =>
    let u2 := sanitize_for_naive_split (canonMarkers u)
    .ok (u2.map (fun r => pad_row r (maxLen u2)))

/-- Every row's length equals the maximum row length. -/
def rectangularB (g : Grid) : Bool :=
  g.all (fun r => r.length == maxLen g)

/-- No cell contains a comma or a double quote. -/
def cleanB (g : Grid) : Bool :=
  g.all (fun r => r.all (fun c => c.data.all (fun ch => ch ≠ ',' && ch ≠ '"')))

/-- Is a seat row (digit first cell valued 1-8) whose Weight cell is blank? -/
def seatBlank (weight_c : Nat) (row : Row) : Bool :=
  !row.isEmpty && pyIsDigit (pyStrip (row.headD "")) &&
    !(strToNat (pyStrip (row.headD "")) < 1 || 8 < strToNat (pyStrip (row.headD ""))) &&
    pyStrip (row.getD weight_c "") = ""

/-- The first crew-table row index range [a, b) holding a blank seat row,
reported as the seat's (stripped) position string. -/
def firstBlankSeat (g : Grid) (a b weight_c : Nat) : Option String :=
  ((List.range' a (b - a)).find? (fun r => seatBlank weight_c (g.getD r []))).map
    (fun r => pyStrip ((g.getD r []).headD ""))

/-- The no-consecutive-bare-markers condition: no bare "#ERROR!" marker row
has, as its next non-blank row, another bare marker row. -/
def goodMarkers : Grid → Bool
  | [] => true
  | r :: rs =>
    (!isBareMarker r ||
      (match rs.find? rowNonblank with
       | none => true
       | some nr => !isBareMarker nr)) && goodMarkers rs

/-- The post-state of a successful column insertion at index `ins`: length
preserved, rows outside [header_r, table_end) untouched, every row in the
bounds gained a cell at `ins` (blank for data rows, the new name in the
header) with all other cells shifted or preserved, and the header's column
map now resolves the new name to `ins` with no duplicate. -/
def insertedColumnOk (rows g2 : Grid) (header_r table_end ins : Nat)
    (new_col_name : String) : Prop :=
  g2.length = rows.length
  ∧ (∀ r, r < header_r ∨ table_end ≤ r → g2.getD r [] = rows.getD r [])
  ∧ (∀ r, header_r ≤ r → r < table_end →
      (g2.getD r []).getD ins "" = (if r = header_r then new_col_name else "")
      ∧ (g2.getD r []).length = max (rows.getD r []).length ins + 1
      ∧ (∀ c, c < ins → (g2.getD r []).getD c "" = (rows.getD r []).getD c "")
      ∧ (∀ c, ins < c → (g2.getD r []).getD c "" = (rows.getD r []).getD (c - 1) ""))
  ∧ (g2.getD header_r []).countP (fun c => pyStrip c = new_col_name) = 1
  ∧ header_col_get new_col_name (g2.getD header_r []) = some ins

/-! ### Basic lemmas: modifyIdx, setIdx, insertPy, pad_row, rangeMap -/

theorem modifyIdx_length {α : Type} (f : α → α) (i : Nat) (l : List α) :
    (modifyIdx f i l).length = l.length := by
  induction l generalizing i with
  | nil => simp [modifyIdx]
  | cons x xs ih =>
    cases i with
    | zero => simp [modifyIdx]
    | succ n => simp [modifyIdx, ih]

theorem getD_modifyIdx_self {α : Type} (f : α → α) (i : Nat) (l : List α) (d : α)
    (h : i < l.length) : (modifyIdx f i l).getD i d = f (l.getD i d) := by
  induction l generalizing i with
  | nil => simp at h
  | cons x xs ih =>
    cases i with
    | zero => simp [modifyIdx]
    | succ n =>
      simp only [modifyIdx, List.getD_cons_succ]
      exact ih n (by simpa using h)

theorem getD_modifyIdx_ne {α : Type} (f : α → α) {i j : Nat} (l : List α) (d : α)
    (h : j ≠ i) : (modifyIdx f i l).getD j d = l.getD j d := by
  induction l generalizing i j with
  | nil => simp [modifyIdx]
  | cons x xs ih =>
    cases i with
    | zero =>
      cases j with
      | zero => exact absurd rfl h
      | succ m => simp [modifyIdx]
    | succ n =>
      cases j with
      | zero => simp [modifyIdx]
      | succ m =>
        simp only [modifyIdx, List.getD_cons_succ]
        exact ih (fun hh => h (by simp [hh]))

theorem setIdx_length {α : Type} (i : Nat) (v : α) (l : List α) :
    (setIdx i v l).length = l.length :=
  modifyIdx_length _ i l

theorem getD_setIdx_self {α : Type} (i : Nat) (v : α) (l : List α) (d : α)
    (h : i < l.length) : (setIdx i v l).getD i d = v := by
  unfold setIdx
  rw [getD_modifyIdx_self _ i l d h]

theorem getD_setIdx_ne {α : Type} {i j : Nat} (v : α) (l : List α) (d : α)
    (h : j ≠ i) : (setIdx i v l).getD j d = l.getD j d :=
  getD_modifyIdx_ne _ l d h

theorem insertPy_length {α : Type} (n : Nat) (a : α) (l : List α) :
    (insertPy n a l).length = l.length + 1 := by
  induction l generalizing n with
  | nil => cases n <;> simp [insertPy]
  | cons x xs ih =>
    cases n with
    | zero => simp [insertPy]
    | succ m => simp [insertPy, ih]

theorem insertPy_eq_append {α : Type} (a : α) :
    ∀ (n : Nat) (l : List α), n ≤ l.length →
      insertPy n a l = l.take n ++ a :: l.drop n := by
  intro n
  induction n with
  | zero => intro l _; simp [insertPy]
  | succ m ih =>
    intro l h
    cases l with
    | nil => simp at h
    | cons x xs =>
      simp only [insertPy, List.take_succ_cons, List.drop_succ_cons, List.cons_append]
      rw [ih xs (by simpa using h)]

theorem getD_insertPy_self {α : Type} (n : Nat) (a : α) (l : List α) (d : α)
    (h : n ≤ l.length) : (insertPy n a l).getD n d = a := by
  induction l generalizing n with
  | nil =>
    cases n with
    | zero => simp [insertPy]
    | succ m => simp at h
  | cons x xs ih =>
    cases n with
    | zero => simp [insertPy]
    | succ m =>
      simp only [insertPy, List.getD_cons_succ]
      exact ih m (by simpa using h)

theorem getD_insertPy_lt {α : Type} {n i : Nat} (a : α) (l : List α) (d : α)
    (h : i < n) (h2 : n ≤ l.length) : (insertPy n a l).getD i d = l.getD i d := by
  induction l generalizing n i with
  | nil => simp at h2; omega
  | cons x xs ih =>
    cases n with
    | zero => omega
    | succ m =>
      cases i with
      | zero => simp [insertPy]
      | succ j =>
        simp only [insertPy, List.getD_cons_succ]
        exact ih (by omega) (by simpa using h2)

theorem getD_insertPy_gt {α : Type} {n i : Nat} (a : α) (l : List α) (d : α)
    (h : n < i) : (insertPy n a l).getD i d = l.getD (i - 1) d := by
  induction l generalizing n i with
  | nil =>
    cases n with
    | zero =>
      cases i with
      | zero => omega
      | succ j => simp [insertPy]
    | succ m =>
      cases i with
      | zero => omega
      | succ j => simp [insertPy]
  | cons x xs ih =>
    cases n with
    | zero =>
      cases i with
      | zero => omega
      | succ j => simp [insertPy]
    | succ m =>
      cases i with
      | zero => omega
      | succ j =>
        simp only [insertPy, List.getD_cons_succ]
        rw [ih (by omega)]
        have hj : 1 ≤ j := by omega
        cases j with
        | zero => omega
        | succ k => simp

theorem countP_insertPy {α : Type} (p : α → Bool) (n : Nat) (a : α) (l : List α) :
    (insertPy n a l).countP p = l.countP p + (if p a then 1 else 0) := by
  induction l generalizing n with
  | nil => cases n <;> simp [insertPy, List.countP_cons]
  | cons x xs ih =>
    cases n with
    | zero => simp [insertPy, List.countP_cons]
    | succ m => simp [insertPy, List.countP_cons, ih]; omega

theorem pad_row_length (row : Row) (n : Nat) :
    (pad_row row n).length = max row.length n := by
  simp [pad_row]; omega

theorem getD_pad_row (row : Row) (n i : Nat) :
    (pad_row row n).getD i "" = row.getD i "" := by
  unfold pad_row
  rcases lt_or_ge i row.length with h | h
  · rw [List.getD_append _ _ _ _ h]
  · rw [List.getD_append_right _ _ _ _ h, List.getD_eq_default _ _ h]
    rcases lt_or_ge (i - row.length) (n - row.length) with h2 | h2
    · rw [List.getD_eq_getElem _ _ (by simpa using h2)]
      simp
    · rw [List.getD_eq_default]
      simpa using h2

theorem countP_pad_row (p : String → Bool) (row : Row) (n : Nat) (hp : p "" = false) :
    (pad_row row n).countP p = row.countP p := by
  unfold pad_row
  rw [List.countP_append]
  have : (List.replicate (n - row.length) "").countP p = 0 := by
    rw [List.countP_eq_zero]
    intro a ha
    rw [List.eq_of_mem_replicate ha]
    simp [hp]
  omega

theorem rangeMap_length (f : Row → Row) (fuel start : Nat) (g : Grid) :
    (rangeMap f fuel start g).length = g.length := by
  induction fuel generalizing start g with
  | zero => rfl
  | succ m ih => simp [rangeMap, ih, modifyIdx_length]

theorem getD_rangeMap_out (f : Row → Row) (fuel : Nat) {start r : Nat} (g : Grid)
    (h : r < start ∨ start + fuel ≤ r) :
    (rangeMap f fuel start g).getD r [] = g.getD r [] := by
  induction fuel generalizing start g with
  | zero => rfl
  | succ m ih =>
    show (rangeMap f m (start + 1) (modifyIdx f start g)).getD r [] = _
    rw [ih (modifyIdx f start g) (by omega), getD_modifyIdx_ne f g [] (by omega)]

theorem getD_rangeMap_in (f : Row → Row) (fuel : Nat) {start r : Nat} (g : Grid)
    (h1 : start ≤ r) (h2 : r < start + fuel) (h3 : r < g.length) :
    (rangeMap f fuel start g).getD r [] = f (g.getD r []) := by
  induction fuel generalizing start g with
  | zero => omega
  | succ m ih =>
    show (rangeMap f m (start + 1) (modifyIdx f start g)).getD r [] = _
    rcases Nat.eq_or_lt_of_le h1 with he | hlt
    · subst he
      rw [getD_rangeMap_out f m (modifyIdx f start g) (by omega),
        getD_modifyIdx_self f start g [] h3]
    · rw [ih (modifyIdx f start g) (by omega) (by omega) (by simpa [modifyIdx_length] using h3),
        getD_modifyIdx_ne f g [] (by omega)]

/-! ### Lemmas about header_col_get and find_first_cell -/

theorem header_col_get_some_spec (name : String) (hdr : Row) :
    ∀ k, header_col_get name hdr = some k →
      k < hdr.length ∧ pyStrip (hdr.getD k "") = name ∧ name ≠ "" := by
  induction hdr with
  | nil => intro k h; simp [header_col_get] at h
  | cons c cs ih =>
    intro k h
    rw [header_col_get] at h
    cases hcs : header_col_get name cs with
    | some j =>
      rw [hcs] at h
      obtain ⟨h1, h2, h3⟩ := ih j hcs
      cases h
      refine ⟨by simpa using h1, ?_, h3⟩
      simpa using h2
    | none =>
      rw [hcs] at h
      by_cases hc : pyStrip c = name ∧ name ≠ ""
      · rw [if_pos (by simp [hc.1, hc.2])] at h
        cases h
        exact ⟨by simp, by simpa using hc.1, hc.2⟩
      · rw [if_neg (by simpa using fun a b => hc ⟨a, b⟩)] at h
        cases h

theorem header_col_get_none_iff (name : String) (hne : name ≠ "") (hdr : Row) :
    header_col_get name hdr = none ↔ ∀ c ∈ hdr, pyStrip c ≠ name := by
  induction hdr with
  | nil => simp [header_col_get]
  | cons c cs ih =>
    rw [header_col_get]
    cases hcs : header_col_get name cs with
    | some j =>
      simp only [hcs]
      constructor
      · intro h; cases h
      · intro h
        obtain ⟨h1, h2, _⟩ := header_col_get_some_spec name cs j hcs
        have : cs.getD j "" ∈ cs := by
          rw [List.getD_eq_getElem _ _ h1]
          exact List.getElem_mem h1
        exact absurd h2 (h _ (List.mem_cons_of_mem c this))
    | none =>
      simp only [hcs]
      constructor
      · intro h c' hc'
        rcases List.mem_cons.mp hc' with rfl | hmem
        · intro hs
          rw [if_pos (by simp [hs, hne])] at h
          cases h
        · exact (ih.mp hcs) c' hmem
      · intro h
        rw [if_neg]
        simp only [Bool.and_eq_true, decide_eq_true_eq, not_and]
        intro hs
        exact absurd hs (h c (List.mem_cons_self c cs))

theorem header_col_get_last (name : String) (hne : name ≠ "") (hdr : Row) :
    ∀ j, j < hdr.length → pyStrip (hdr.getD j "") = name →
      (∀ m, j < m → m < hdr.length → pyStrip (hdr.getD m "") ≠ name) →
      header_col_get name hdr = some j := by
  induction hdr with
  | nil => intro j hj; simp at hj
  | cons c cs ih =>
    intro j hj hsj hlast
    cases j with
    | zero =>
      have hnone : header_col_get name cs = none := by
        rw [header_col_get_none_iff name hne cs]
        intro x hx
        obtain ⟨i, hi, hix⟩ := List.mem_iff_getElem.mp hx
        have : (c :: cs).getD (i + 1) "" = x := by
          rw [List.getD_cons_succ, List.getD_eq_getElem _ _ hi, hix]
        rw [← this]
        exact hlast (i + 1) (by omega) (by simpa using hi)
      rw [header_col_get, hnone]
      simp only [List.getD_cons_zero] at hsj
      rw [if_pos (by simp [hsj, hne])]
    | succ m =>
      have : header_col_get name cs = some m := by
        apply ih m (by simpa using hj) (by simpa using hsj)
        intro m' hm' hm'2
        have := hlast (m' + 1) (by omega) (by simpa using hm'2)
        simpa using this
      rw [header_col_get, this]

theorem cellIdx_none_iff (target : String) (row : Row) :
    cellIdx target row = none ↔ ∀ c ∈ row, pyStrip c ≠ target := by
  induction row with
  | nil => simp [cellIdx]
  | cons cell rest ih =>
    rw [cellIdx]
    by_cases h : pyStrip cell = target
    · rw [if_pos h]
      constructor
      · intro hfalse; cases hfalse
      · intro hall; exact absurd h (hall cell (List.mem_cons_self cell rest))
    · rw [if_neg h]
      cases hr : cellIdx target rest with
      | some c =>
        simp only [hr, Option.map_some']
        constructor
        · intro hfalse; cases hfalse
        · intro hall
          have := ih.mpr (fun x hx => hall x (List.mem_cons_of_mem cell hx))
          rw [this] at hr; cases hr
      | none =>
        simp only [hr, Option.map_none']
        constructor
        · intro _ x hx
          rcases List.mem_cons.mp hx with rfl | hmem
          · exact h
          · exact ih.mp hr x hmem
        · intro _; trivial

theorem cellIdx_some_spec (target : String) (row : Row) :
    ∀ c, cellIdx target row = some c →
      c < row.length ∧ pyStrip (row.getD c "") = target := by
  induction row with
  | nil => intro c h; simp [cellIdx] at h
  | cons cell rest ih =>
    intro c h
    rw [cellIdx] at h
    by_cases hc : pyStrip cell = target
    · rw [if_pos hc] at h
      cases h
      exact ⟨by simp, by simpa using hc⟩
    · rw [if_neg hc] at h
      cases hr : cellIdx target rest with
      | none => rw [hr] at h; cases h
      | some c' =>
        rw [hr] at h
        cases h
        obtain ⟨h1, h2⟩ := ih c' hr
        exact ⟨by simpa using h1, by simpa using h2⟩

theorem find_first_cell_none_iff (rows : Grid) (target : String) :
    find_first_cell rows target = none ↔
      ∀ row ∈ rows, ∀ c ∈ row, pyStrip c ≠ target := by
  unfold find_first_cell
  induction rows with
  | nil => simp [findCellRows]
  | cons row rest ih =>
    rw [findCellRows]
    cases hc : cellIdx target row with
    | some c =>
      simp only [hc]
      constructor
      · intro h; cases h
      · intro h
        have := (cellIdx_none_iff target row).mpr (h row (List.mem_cons_self row rest))
        rw [this] at hc; cases hc
    | none =>
      simp only [hc]
      constructor
      · intro h r hr c hcr
        rcases List.mem_cons.mp hr with rfl | hmem
        · exact (cellIdx_none_iff target r).mp hc c hcr
        · exact ih.mp (by simpa using h) r hmem c hcr
      · intro h
        have : findCellRows target rest = none :=
          ih.mpr (fun r hr => h r (List.mem_cons_of_mem row hr))
        simp [this]

theorem find_first_cell_some_spec (rows : Grid) (target : String) :
    ∀ r c, find_first_cell rows target = some (r, c) →
      r < rows.length ∧ c < (rows.getD r []).length ∧
        pyStrip ((rows.getD r []).getD c "") = target := by
  unfold find_first_cell
  induction rows with
  | nil => intro r c h; simp [findCellRows] at h
  | cons row rest ih =>
    intro r c h
    rw [findCellRows] at h
    cases hc : cellIdx target row with
    | some c2 =>
      rw [hc] at h
      have hrc : ((0 : Nat), c2) = (r, c) := Option.some.inj h
      have hr0 : r = 0 := (Prod.ext_iff.mp hrc).1.symm
      have hc0 : c = c2 := (Prod.ext_iff.mp hrc).2.symm
      obtain ⟨h1, h2⟩ := cellIdx_some_spec target row c2 hc
      refine ⟨?_, ?_, ?_⟩
      · rw [hr0]; simp
      · rw [hr0, hc0]; simpa using h1
      · rw [hr0, hc0]; simpa using h2
    | none =>
      rw [hc] at h
      cases hr : findCellRows target rest with
      | none => rw [hr] at h; cases h
      | some rc =>
        rw [hr] at h
        have hrc : (rc.1 + 1, rc.2) = (r, c) := Option.some.inj h
        have hr0 : r = rc.1 + 1 := (Prod.ext_iff.mp hrc).1.symm
        have hc0 : c = rc.2 := (Prod.ext_iff.mp hrc).2.symm
        obtain ⟨h1, h2, h3⟩ := ih rc.1 rc.2 (by rw [hr])
        refine ⟨?_, ?_, ?_⟩
        · rw [hr0]; simpa using h1
        · rw [hr0, hc0]; simpa using h2
        · rw [hr0, hc0]; simpa using h3

/-! ### Lemmas about maxLen and the sanitizer -/

theorem length_le_maxLen {g : Grid} {r : Row} (h : r ∈ g) : r.length ≤ maxLen g := by
  induction g with
  | nil => cases h
  | cons x t ih =>
    rcases List.mem_cons.mp h with rfl | hmem
    · exact le_max_left _ _
    · exact le_trans (ih hmem) (le_max_right _ _)

theorem maxLen_eq_of_all {g : Grid} {m : Nat} (h : ∀ r ∈ g, r.length = m)
    (hne : g ≠ []) : maxLen g = m := by
  induction g with
  | nil => exact absurd rfl hne
  | cons x t ih =>
    show max x.length (maxLen t) = m
    rw [h x (List.mem_cons_self x t)]
    cases t with
    | nil => simp [maxLen]
    | cons y t' =>
      rw [ih (fun r hr => h r (List.mem_cons_of_mem x hr)) (by simp)]
      simp

theorem sanCell_clean (s : String) :
    ∀ ch ∈ (sanCell s).data, ch ≠ ',' ∧ ch ≠ '"' := by
  intro ch hch
  have hch' : ch ∈ (s.data.map (fun c => if c = ',' then ' ' else c)).filter
      (fun c => c ≠ '"') := hch
  rw [List.mem_filter] at hch'
  obtain ⟨hmem, hq⟩ := hch'
  refine ⟨?_, by simpa using hq⟩
  obtain ⟨a, _, ha⟩ := List.mem_map.mp hmem
  by_cases hac : a = ','
  · rw [if_pos hac] at ha; rw [← ha]; decide
  · rw [if_neg hac] at ha; rw [← ha]; exact hac

/-! ### Claim C10: the Cox-cell precondition of apply_updates -/

/-- C10: apply_updates succeeds only if some cell's trimmed text equals
exactly "Cox" (case-sensitive), failing with the cox error otherwise (and
then mutating nothing); when the first such cell is at (r, c), the supplied
cox identifier is written at (r, c+2) after padding row r to length c+3,
before any other mutation of the grid (every other row is untouched by the
Cox step, and the rest of the pipeline runs on that one-write grid). -/
theorem apply_updates_cox_precondition (rows : Grid)
    (cox_uni rig_info wind stream temperature zone : String)
    (wget : String → Option String) :
    ((∀ row ∈ rows, ∀ c ∈ row, pyStrip c ≠ "Cox") →
       apply_updatesRun rows cox_uni rig_info wind stream temperature zone wget
         = (rows, some coxErrMsg))
    ∧ (∀ out, apply_updatesRun rows cox_uni rig_info wind stream temperature zone wget
          = (out, none) → ∃ row ∈ rows, ∃ c ∈ row, pyStrip c = "Cox")
    ∧ (∀ r c, find_first_cell rows "Cox" = some (r, c) →
        apply_updatesRun rows cox_uni rig_info wind stream temperature zone wget
          = afterCoxStage (coxWrite rows r c cox_uni) rig_info wind stream temperature zone wget
        ∧ r < rows.length
        ∧ pyStrip ((rows.getD r []).getD c "") = "Cox"
        ∧ (coxWrite rows r c cox_uni).length = rows.length
        ∧ (∀ r', r' ≠ r → (coxWrite rows r c cox_uni).getD r' [] = rows.getD r' [])
        ∧ (coxWrite rows r c cox_uni).getD r []
            = setIdx (c + 2) cox_uni (pad_row (rows.getD r []) (c + 3))
        ∧ c + 3 ≤ ((coxWrite rows r c cox_uni).getD r []).length
        ∧ ((coxWrite rows r c cox_uni).getD r []).getD (c + 2) "" = cox_uni) := by
  refine ⟨?_, ?_, ?_⟩
  · intro h
    have hnone : find_first_cell rows "Cox" = none :=
      (find_first_cell_none_iff rows "Cox").mpr h
    unfold apply_updatesRun
    rw [hnone]
  · intro out h
    cases hf : find_first_cell rows "Cox" with
    | none =>
      unfold apply_updatesRun at h
      rw [hf] at h
      have := congrArg Prod.snd h
      simp at this
    | some rc =>
      obtain ⟨h1, h2, h3⟩ := find_first_cell_some_spec rows "Cox" rc.1 rc.2 (by
        rw [hf])
      refine ⟨rows.getD rc.1 [], ?_, (rows.getD rc.1 []).getD rc.2 "", ?_, h3⟩
      · rw [List.getD_eq_getElem _ _ h1]; exact List.getElem_mem h1
      · rw [List.getD_eq_getElem _ _ h2]; exact List.getElem_mem h2
  · intro r c hf
    obtain ⟨h1, h2, h3⟩ := find_first_cell_some_spec rows "Cox" r c hf
    have hrow : (coxWrite rows r c cox_uni).getD r []
        = setIdx (c + 2) cox_uni (pad_row (rows.getD r []) (c + 3)) := by
      unfold coxWrite
      rw [getD_modifyIdx_self _ r rows [] h1]
    have hlen : c + 3 ≤ ((coxWrite rows r c cox_uni).getD r []).length := by
      rw [hrow, setIdx_length, pad_row_length]; omega
    refine ⟨?_, h1, h3, modifyIdx_length _ r rows, ?_, hrow, hlen, ?_⟩
    · unfold apply_updatesRun
      rw [hf]
    · intro r' hr'
      exact getD_modifyIdx_ne _ rows [] hr'
    · rw [hrow, getD_setIdx_self]
      rw [pad_row_length]; omega

/-- Witness for C10 at a concrete grid containing a "Cox" cell at (0, 1). -/
theorem apply_updates_cox_precondition_witness :
    apply_updatesRun [["x", "Cox"]] "u9" "r" "w" "s" "t" "z" (fun _ => none)
      = afterCoxStage (coxWrite [["x", "Cox"]] 0 1 "u9") "r" "w" "s" "t" "z" (fun _ => none)
    ∧ (coxWrite [["x", "Cox"]] 0 1 "u9").getD 0 []
        = setIdx 3 "u9" (pad_row ["x", "Cox"] 4) := by
  have h := (apply_updates_cox_precondition [["x", "Cox"]] "u9" "r" "w" "s" "t" "z"
    (fun _ => none)).2.2 0 1 (by decide)
  exact ⟨h.1, h.2.2.2.2.2.1⟩

/-! ### Claim C6: no partial output on fatal errors -/

/-- C6 counterexample: with a grid containing a "Cox" cell but no Crew Info
table, apply_updates fails (crew table not found), yet the grid state at
the failure point differs from the input: the Cox write already happened.
The claim "the grid is left exactly as it was before the call" is false. -/
theorem apply_updates_partial_mutation_cex :
    apply_updatesRun [["Cox"]] "u1" "r" "w" "s" "t" "z" (fun _ => none)
      = ([["Cox", "", "u1"]], some crewTableErrMsg)
    ∧ [["Cox", "", "u1"]] ≠ [["Cox"]] := by decide

/-- C6 amended: a failing apply_updates yields no output grid (the caller
of the Except-valued function receives the error, never a grid), and the
input grid is guaranteed untouched when the failure is the initial
missing-Cox check; later failures may leave mutations of completed steps
in the in-place grid state. -/
theorem apply_updates_no_partial_output (rows : Grid)
    (cox_uni rig_info wind stream temperature zone : String)
    (wget : String → Option String) :
    (∀ g e, apply_updatesRun rows cox_uni rig_info wind stream temperature zone wget
        = (g, some e) →
       apply_updates rows cox_uni rig_info wind stream temperature zone wget = .error e)
    ∧ (find_first_cell rows "Cox" = none →
       apply_updatesRun rows cox_uni rig_info wind stream temperature zone wget
         = (rows, some coxErrMsg)) := by
  constructor
  · intro g e h
    unfold apply_updates
    rw [h]
  · intro h
    unfold apply_updatesRun
    rw [h]

/-- Witness for C6 (amended) at a concrete grid without a "Cox" cell. -/
theorem apply_updates_no_partial_output_witness :
    apply_updatesRun [["a"]] "u" "r" "w" "s" "t" "z" (fun _ => none)
      = ([["a"]], some coxErrMsg) :=
  (apply_updates_no_partial_output [["a"]] "u" "r" "w" "s" "t" "z" (fun _ => none)).2
    (by decide)

/-! ### Claim C9: duplicate column names in the header map -/

/-- C9 counterexample: the table locator accepts this Crew Info header row
carrying "Name" at indices 1 and 4, and the column map resolves "Name" to
index 4 (the last occurrence), not the claimed first occurrence 1. -/
theorem header_first_wins_cex :
    find_crew_info_table [["Position", "Name", "Abbr", "Weight", "Name"]]
      = some (0, 1, 1, ["Position", "Name", "Abbr", "Weight", "Name"])
    ∧ header_col_get "Name" ["Position", "Name", "Abbr", "Weight", "Name"] = some 4
    ∧ header_col_get "Name" ["Position", "Name", "Abbr", "Weight", "Name"] ≠ some 1 := by
  decide

/-- C9 amended: in the column map built from a header row, duplicate
non-empty column names resolve to the index of their LAST occurrence: for
a header with the name at two distinct indices i < j and at no index past
j, the map assigns the name the larger index j. -/
theorem header_col_map_last_wins (hdr : Row) (name : String) (i j : Nat)
    (hne : name ≠ "") (hij : i < j) (hjlen : j < hdr.length)
    (hi : pyStrip (hdr.getD i "") = name) (hj : pyStrip (hdr.getD j "") = name)
    (hlast : ∀ m, j < m → m < hdr.length → pyStrip (hdr.getD m "") ≠ name) :
    header_col_get name hdr = some j :=
  header_col_get_last name hne hdr j hjlen hj hlast

/-- Witness for C9 (amended) on the duplicate-Name header row. -/
theorem header_col_map_last_wins_witness :
    header_col_get "Name" ["Position", "Name", "Abbr", "Weight", "Name"] = some 4 :=
  header_col_map_last_wins ["Position", "Name", "Abbr", "Weight", "Name"] "Name" 1 4
    (by decide) (by decide) (by decide) (by decide) (by decide)
    (by intro m h1 h2; simp at h2; omega)

/-! ### Claim C8: the multi-export trim -/

theorem filter_range_singleton {p : Nat → Bool} :
    ∀ {j i : Nat}, i < j → p i = true →
      (∀ k, k < j → k ≠ i → p k = false) → (List.range j).filter p = [i] := by
  intro j
  induction j with
  | zero => intro i h; omega
  | succ m ih =>
    intro i hij hpi honly
    rw [List.range_succ, List.filter_append]
    rcases Nat.lt_or_ge i m with him | him
    · rw [ih him hpi (fun k hk hki => honly k (by omega) hki)]
      have hm : p m = false := honly m (by omega) (by omega)
      simp [hm]
    · have hi : i = m := by omega
      subst hi
      have h0 : (List.range i).filter p = [] := by
        rw [List.filter_eq_nil_iff]
        intro k hk
        have hki := List.mem_range.mp hk
        simp [honly k (by omega) (by omega)]
      simp [h0, hpi]

theorem filter_range_two {p : Nat → Bool} {i j n : Nat} (hij : i < j) (hjn : j < n)
    (hpi : p i = true) (hpj : p j = true)
    (honly : ∀ k, k < j → k ≠ i → p k = false) :
    ∃ t, (List.range n).filter p = i :: j :: t := by
  have hsplit : n = (j + 1) + (n - (j + 1)) := by omega
  have hr : List.range n
      = List.range (j + 1) ++ (List.range (n - (j + 1))).map (fun x => (j + 1) + x) := by
    conv_lhs => rw [hsplit]
    exact List.range_add _ _
  rw [hr, List.filter_append, List.range_succ, List.filter_append,
    filter_range_singleton hij hpi honly]
  refine ⟨((List.range (n - (j + 1))).map (fun x => (j + 1) + x)).filter p, ?_⟩
  simp [hpj]

theorem filter_le_one_of_no_two {p : Nat → Bool} {n : Nat}
    (h : ∀ i j, i < j → j < n → ¬(p i = true ∧ p j = true)) :
    ((List.range n).filter p).length ≤ 1 := by
  by_contra hlen
  push_neg at hlen
  have hpw : ((List.range n).filter p).Pairwise (· < ·) :=
    List.Pairwise.filter p (List.pairwise_lt_range n)
  cases hm : (List.range n).filter p with
  | nil => rw [hm] at hlen; simp at hlen
  | cons a l2 =>
    cases l2 with
    | nil => rw [hm] at hlen; simp at hlen
    | cons b t =>
      have ha : a ∈ (List.range n).filter p := by
        rw [hm]; exact List.mem_cons_self _ _
      have hb : b ∈ (List.range n).filter p := by
        rw [hm]; exact List.mem_cons_of_mem _ (List.mem_cons_self _ _)
      rw [List.mem_filter, List.mem_range] at ha hb
      have hab : a < b := by
        rw [hm] at hpw
        exact (List.pairwise_cons.mp hpw).1 b (List.mem_cons_self _ _)
      exact h a b hab hb.1 ⟨ha.2, hb.2⟩

/-- C8: trim_to_first_export returns the grid unchanged when rows matching
the File-Info header signature occur at most once, and otherwise returns
exactly the rows strictly before (second occurrence - 1), one row of slack
being reserved before the duplicate header. -/
theorem trim_to_first_export_spec (rows : Grid) :
    ((∀ i j, i < j → j < rows.length →
        ¬(fileInfoHit (rows.getD i []) = true ∧ fileInfoHit (rows.getD j []) = true)) →
      trim_to_first_export rows = rows)
    ∧ (∀ i j, i < j → j < rows.length →
        fileInfoHit (rows.getD i []) = true → fileInfoHit (rows.getD j []) = true →
        (∀ k, k < j → k ≠ i → fileInfoHit (rows.getD k []) = false) →
        trim_to_first_export rows = rows.take (j - 1)) := by
  constructor
  · intro h
    unfold trim_to_first_export
    rw [if_pos (filter_le_one_of_no_two h)]
  · intro i j hij hj hpi hpj honly
    obtain ⟨t, ht⟩ := filter_range_two hij hj hpi hpj honly
    unfold trim_to_first_export
    rw [ht]
    rw [if_neg (by simp)]
    simp

/-- Witness for C8: a grid with File-Info header rows at indices 0 and 2 is
trimmed to its first row. -/
theorem trim_to_first_export_spec_witness :
    trim_to_first_export
        [["Serial #", "Session", "Filename", "Start Time"], ["x"],
         ["Serial #", "Session", "Filename", "Start Time"], ["y"]]
      = [["Serial #", "Session", "Filename", "Start Time"], ["x"],
         ["Serial #", "Session", "Filename", "Start Time"], ["y"]].take 1 :=
  (trim_to_first_export_spec _).2 0 2 (by decide) (by decide) (by decide) (by decide)
    (by
      intro k h1 h2
      interval_cases k
      · exact absurd rfl h2
      · decide)


/-! ### Claim C3: identifier-keyed weight precedence -/

/-- C3: for a Crew-table seat row (digit first cell valued 1-8), when the
weight map holds a non-blank entry under the row's lowercased trimmed
identifier and any entry under the pos_-seat key, the value written into
the Weight cell by the write pass is the identifier-keyed value (stripped):
the seat key is not consulted. -/
theorem crew_weight_identifier_precedence (g : Grid) (a b r abbr_c weight_c : Nat)
    (wget : String → Option String) (w w2 : String)
    (h1 : a ≤ r) (h2 : r < b) (h3 : r < g.length)
    (hrow : g.getD r [] ≠ [])
    (hdig : pyIsDigit (pyStrip ((g.getD r []).headD "")) = true)
    (hlo : 1 ≤ strToNat (pyStrip ((g.getD r []).headD "")))
    (hhi : strToNat (pyStrip ((g.getD r []).headD "")) ≤ 8)
    (habbr : wget (pyLower (pyStrip ((g.getD r []).getD abbr_c ""))) = some w)
    (hw : pyStrip w ≠ "")
    (hpos : wget ("pos_" ++ pyStrip ((g.getD r []).headD "")) = some w2) :
    ((crewWeightPass g a b abbr_c weight_c wget).getD r []).getD weight_c ""
      = pyStrip w := by
  unfold crewWeightPass
  rw [getD_rangeMap_in _ _ g h1 (by omega) h3]
  simp only [crewRowUpdate]
  rw [if_neg (by intro hh; exact hrow (List.isEmpty_iff.mp hh))]
  rw [if_neg (by simp only [Bool.not_eq_true']; rw [hdig]; simp)]
  rw [if_neg (by simp only [Bool.or_eq_true, decide_eq_true_eq]; omega)]
  simp only [getD_pad_row, habbr, if_neg hw]
  rw [getD_setIdx_self]
  rw [pad_row_length]
  omega

/-- Witness for C3: seat 3 with identifier AB1234; the map holds both
"ab1234" (68.0) and "pos_3" (71.5); the written weight is 68.0. -/
theorem crew_weight_identifier_precedence_witness :
    ((crewWeightPass [["3", "Name", "AB1234", ""]] 0 1 2 3
        (fun k => if k = "ab1234" then some "68.0" else
                  if k = "pos_3" then some "71.5" else none)).getD 0 []).getD 3 ""
      = pyStrip "68.0" :=
  crew_weight_identifier_precedence [["3", "Name", "AB1234", ""]] 0 1 0 2 3
    (fun k => if k = "ab1234" then some "68.0" else
              if k = "pos_3" then some "71.5" else none) "68.0" "71.5"
    (by decide) (by decide) (by decide) (by decide) (by decide) (by decide) (by decide)
    (by decide) (by decide) (by decide)

/-! ### Claim C4: the completeness re-scan after the write pass -/

theorem find?_congr_on {α : Type} (l : List α) (p q : α → Bool)
    (h : ∀ a ∈ l, p a = q a) : l.find? p = l.find? q := by
  induction l with
  | nil => rfl
  | cons a t ih =>
    rw [List.find?_cons, List.find?_cons, h a (List.mem_cons_self a t)]
    cases q a with
    | true => rfl
    | false => exact ih (fun x hx => h x (List.mem_cons_of_mem a hx))

theorem crewCheckLoop_spec (weight_c : Nat) :
    ∀ (fuel start : Nat) (g : Grid),
      (∀ r, (List.range' start fuel).find? (fun r => seatBlank weight_c (g.getD r []))
          = some r →
        (crewCheckLoop weight_c fuel start g).2
          = some (missingWeightMsg (pyStrip ((g.getD r []).headD ""))))
      ∧ ((List.range' start fuel).find? (fun r => seatBlank weight_c (g.getD r [])) = none →
        (crewCheckLoop weight_c fuel start g).2 = none) := by
  intro fuel
  induction fuel with
  | zero =>
    intro start g
    constructor
    · intro r h
      simp at h
    · intro _
      rfl
  | succ m ih =>
    intro start g
    rw [List.range'_succ]
    cases hsb : seatBlank weight_c (g.getD start []) with
    | true =>
      have hparts := hsb
      unfold seatBlank at hparts
      simp only [Bool.and_eq_true, Bool.not_eq_true', decide_eq_true_eq] at hparts
      obtain ⟨⟨⟨hne, hdig⟩, hrange⟩, hblank⟩ := hparts
      have hstep : (crewCheckLoop weight_c (m + 1) start g).2
          = some (missingWeightMsg (pyStrip ((g.getD start []).headD ""))) := by
        simp only [crewCheckLoop]
        rw [if_neg (by rw [hne]; simp)]
        rw [if_neg (by simp only [Bool.not_eq_true']; rw [hdig]; simp)]
        rw [if_neg (by rw [hrange]; simp)]
        rw [if_pos (by rw [getD_pad_row]; exact hblank)]
      constructor
      · intro r h
        rw [List.find?_cons, hsb] at h
        cases h
        exact hstep
      · intro h
        rw [List.find?_cons, hsb] at h
        cases h
    | false =>
      have hrec : (start :: List.range' (start + 1) m).find?
          (fun r => seatBlank weight_c (g.getD r []))
          = (List.range' (start + 1) m).find? (fun r => seatBlank weight_c (g.getD r [])) := by
        rw [List.find?_cons, hsb]
      rw [hrec]
      by_cases h1 : (g.getD start []).isEmpty = true
      · have hstep : crewCheckLoop weight_c (m + 1) start g
            = crewCheckLoop weight_c m (start + 1) g := by
          simp only [crewCheckLoop]
          rw [if_pos h1]
        rw [hstep]
        exact ih (start + 1) g
      · by_cases h2 : pyIsDigit (pyStrip ((g.getD start []).headD "")) = true
        · by_cases h3 : strToNat (pyStrip ((g.getD start []).headD "")) < 1 ∨
              8 < strToNat (pyStrip ((g.getD start []).headD ""))
          · have hstep : crewCheckLoop weight_c (m + 1) start g
                = crewCheckLoop weight_c m (start + 1) g := by
              simp only [crewCheckLoop]
              rw [if_neg h1, if_neg (by simp only [Bool.not_eq_true']; rw [h2]; simp),
                if_pos (by simp only [Bool.or_eq_true, decide_eq_true_eq]; exact h3)]
            rw [hstep]
            exact ih (start + 1) g
          · have h4 : pyStrip ((g.getD start []).getD weight_c "") ≠ "" := by
              intro h4
              have hcontra : seatBlank weight_c (g.getD start []) = true := by
                unfold seatBlank
                simp only [Bool.and_eq_true, Bool.not_eq_true', decide_eq_true_eq]
                refine ⟨⟨⟨?_, h2⟩, ?_⟩, h4⟩
                · cases hx : (g.getD start []).isEmpty with
                  | true => exact absurd hx h1
                  | false => rfl
                · simp only [Bool.or_eq_false_iff, decide_eq_false_iff_not]
                  push_neg at h3
                  exact ⟨by omega, by omega⟩
              rw [hcontra] at hsb
              cases hsb
            have hstep : crewCheckLoop weight_c (m + 1) start g
                = crewCheckLoop weight_c m (start + 1)
                    (modifyIdx (fun rr => pad_row rr (weight_c + 1)) start g) := by
              simp only [crewCheckLoop]
              rw [if_neg h1, if_neg (by simp only [Bool.not_eq_true']; rw [h2]; simp)]
              rw [if_neg (by
                simp only [Bool.or_eq_true, decide_eq_true_eq]
                exact h3)]
              rw [if_neg (by rw [getD_pad_row]; exact h4)]
            have hcongr : (List.range' (start + 1) m).find?
                (fun r => seatBlank weight_c
                  ((modifyIdx (fun rr => pad_row rr (weight_c + 1)) start g).getD r []))
                = (List.range' (start + 1) m).find?
                    (fun r => seatBlank weight_c (g.getD r [])) := by
              apply find?_congr_on
              intro r hr
              have hge := (List.mem_range'_1.mp hr).1
              rw [getD_modifyIdx_ne _ g [] (by omega)]
            obtain ⟨ih1, ih2⟩ :=
              ih (start + 1) (modifyIdx (fun rr => pad_row rr (weight_c + 1)) start g)
            rw [hstep]
            constructor
            · intro r h
              have hrmem := List.mem_of_find?_eq_some h
              have hge := (List.mem_range'_1.mp hrmem).1
              have hres := ih1 r (by rw [hcongr]; exact h)
              rw [getD_modifyIdx_ne _ g [] (by omega)] at hres
              exact hres
            · intro h
              exact ih2 (by rw [hcongr]; exact h)
        · have hstep : crewCheckLoop weight_c (m + 1) start g
              = crewCheckLoop weight_c m (start + 1) g := by
            simp only [crewCheckLoop]
            rw [if_neg h1, if_pos (by
              simp only [Bool.not_eq_true']
              cases hx : pyIsDigit (pyStrip ((g.getD start []).headD "")) with
              | true => exact absurd hx h2
              | false => rfl)]
          rw [hstep]
          exact ih (start + 1) g

/-- C4: after the full weight-write pass (the fallback chain fully
exercised first), the re-scan of the crew table rows fails with the
incompleteness error naming the first seat row 1-8 whose Weight cell is
still blank, and raises no such error when no seat row's Weight cell is
blank. -/
theorem crew_completeness_check (g0 : Grid) (a b abbr_c weight_c : Nat)
    (wget : String → Option String) :
    (∀ p, firstBlankSeat (crewWeightPass g0 a b abbr_c weight_c wget) a b weight_c = some p →
       (crewCheckRun (crewWeightPass g0 a b abbr_c weight_c wget) a b weight_c).2
         = some (missingWeightMsg p))
    ∧ (firstBlankSeat (crewWeightPass g0 a b abbr_c weight_c wget) a b weight_c = none →
       (crewCheckRun (crewWeightPass g0 a b abbr_c weight_c wget) a b weight_c).2 = none) := by
  have hspec := crewCheckLoop_spec weight_c (b - a) a (crewWeightPass g0 a b abbr_c weight_c wget)
  unfold crewCheckRun firstBlankSeat
  constructor
  · intro p hp
    cases hf : (List.range' a (b - a)).find?
        (fun r => seatBlank weight_c ((crewWeightPass g0 a b abbr_c weight_c wget).getD r [])) with
    | none => rw [hf, Option.map_none'] at hp; cases hp
    | some r =>
      rw [hf, Option.map_some'] at hp
      cases hp
      exact hspec.1 r hf
  · intro hp
    cases hf : (List.range' a (b - a)).find?
        (fun r => seatBlank weight_c ((crewWeightPass g0 a b abbr_c weight_c wget).getD r [])) with
    | some r => rw [hf, Option.map_some'] at hp; cases hp
    | none => exact hspec.2 hf

/-- Witness for C4: seat 5 remains blank under an empty weight map, so the
re-scan fails naming seat 5. -/
theorem crew_completeness_check_witness :
    firstBlankSeat (crewWeightPass [["5", "N", "xx999", ""]] 0 1 2 3 (fun _ => none)) 0 1 3
      = some "5"
    ∧ (crewCheckRun (crewWeightPass [["5", "N", "xx999", ""]] 0 1 2 3 (fun _ => none)) 0 1 3).2
        = some (missingWeightMsg "5") :=
  ⟨by decide,
   (crew_completeness_check [["5", "N", "xx999", ""]] 0 1 2 3 (fun _ => none)).1 "5" (by decide)⟩

/-! ### Claim C5: piece row classification -/

/-- C5 counterexample: the Pace value "1:2" contains a colon flanked by
digits (the spec's wording) and is non-blank, yet the metadata pass writes
nothing to the row (PACE_LIKE requires two digits after the colon): the
claimed iff fails at this input. -/
theorem piece_pace_shape_cex :
    specPaceShaped "1:2" = true
    ∧ pyStrip "1:2" ≠ ""
    ∧ rowNonblank ["1:2", "a", "b", "c", "d", "e", "f"] = true
    ∧ pieceWritePass [["1:2", "a", "b", "c", "d", "e", "f"]] 0 1 (some 0) 1 2 3 4 6
        "R" "Z" "W" "S" "T"
      = [["1:2", "a", "b", "c", "d", "e", "f"]] := by decide

/-- C5 amended: a not-entirely-blank row inside the written bounds receives
the five metadata writes iff its Pace value is non-blank and pace-like in
the code's sense (a colon immediately followed by two digits, before any
newline); otherwise the row only gets padded to the highest referenced
column index, no cell value changed. -/
theorem piece_write_classification (g : Grid) (a b r : Nat) (pace_idx : Option Nat)
    (comment_c zone_c wind_c stream_c temp_c : Nat)
    (rig_info zone wind stream temperature : String)
    (h1 : a ≤ r) (h2 : r < b) (h3 : r < g.length)
    (hrow : g.getD r [] ≠ [])
    (hnb : rowNonblank (g.getD r []) = true) :
    ((pieceReadPace pace_idx
        (pad_row (g.getD r []) (pieceMaxIdx comment_c zone_c wind_c stream_c temp_c + 1)) ≠ ""
      ∧ paceLike (pieceReadPace pace_idx
          (pad_row (g.getD r []) (pieceMaxIdx comment_c zone_c wind_c stream_c temp_c + 1)))
          = true →
      (pieceWritePass g a b pace_idx comment_c zone_c wind_c stream_c temp_c
          rig_info zone wind stream temperature).getD r []
        = pieceFiveWrites comment_c zone_c wind_c stream_c temp_c
            rig_info zone wind stream temperature
            (pad_row (g.getD r []) (pieceMaxIdx comment_c zone_c wind_c stream_c temp_c + 1))))
    ∧ ((pieceReadPace pace_idx
        (pad_row (g.getD r []) (pieceMaxIdx comment_c zone_c wind_c stream_c temp_c + 1)) = ""
      ∨ paceLike (pieceReadPace pace_idx
          (pad_row (g.getD r []) (pieceMaxIdx comment_c zone_c wind_c stream_c temp_c + 1)))
          = false →
      (pieceWritePass g a b pace_idx comment_c zone_c wind_c stream_c temp_c
          rig_info zone wind stream temperature).getD r []
        = pad_row (g.getD r []) (pieceMaxIdx comment_c zone_c wind_c stream_c temp_c + 1))) := by
  have hred : (pieceWritePass g a b pace_idx comment_c zone_c wind_c stream_c temp_c
      rig_info zone wind stream temperature).getD r []
      = pieceRowUpdate pace_idx comment_c zone_c wind_c stream_c temp_c
          rig_info zone wind stream temperature (g.getD r []) := by
    unfold pieceWritePass
    rw [getD_rangeMap_in _ _ g h1 (by omega) h3]
  constructor
  · intro hp12
    obtain ⟨hp1, hp2⟩ := hp12
    rw [hred]
    simp only [pieceRowUpdate]
    rw [if_neg (by intro hh; exact hrow (List.isEmpty_iff.mp hh))]
    rw [if_neg (by simp only [Bool.not_eq_true', Bool.not_eq_true]; rw [hnb]; simp)]
    rw [if_neg (by simp only [Bool.or_eq_true, decide_eq_true_eq, Bool.not_eq_true']; rintro (h | h); exacts [hp1 h, by rw [hp2] at h; cases h])]
  · intro hp
    rw [hred]
    simp only [pieceRowUpdate]
    rw [if_neg (by intro hh; exact hrow (List.isEmpty_iff.mp hh))]
    rw [if_neg (by simp only [Bool.not_eq_true', Bool.not_eq_true]; rw [hnb]; simp)]
    rw [if_pos (by simp only [Bool.or_eq_true, decide_eq_true_eq, Bool.not_eq_true']; exact hp)]

/-- Witness for C5 (amended): a row with Pace "1:31.4" receives all five
writes; "N/A" and "" are not pace-like. -/
theorem piece_write_classification_witness :
    (pieceWritePass [["1:31.4", "a", "b", "c", "d", "e", "f"]] 0 1 (some 0) 1 2 3 4 6
        "R" "Z" "W" "S" "T").getD 0 []
      = pieceFiveWrites 1 2 3 4 6 "R" "Z" "W" "S" "T"
          (pad_row ["1:31.4", "a", "b", "c", "d", "e", "f"] (pieceMaxIdx 1 2 3 4 6 + 1))
    ∧ paceLike "1:31.4" = true ∧ paceLike "N/A" = false ∧ paceLike "" = false :=
  ⟨(piece_write_classification [["1:31.4", "a", "b", "c", "d", "e", "f"]] 0 1 0 (some 0)
      1 2 3 4 6 "R" "Z" "W" "S" "T" (by decide) (by decide) (by decide) (by decide)
      (by decide)).1 (by decide),
   by decide, by decide, by decide⟩

/-! ### Claim C1: atomic column insertion -/

theorem setIdx_append_len {α : Type} (l1 : List α) (a v : α) (l2 : List α) :
    setIdx l1.length v (l1 ++ a :: l2) = l1 ++ v :: l2 := by
  induction l1 with
  | nil => rfl
  | cons x xs ih =>
    show x :: setIdx xs.length v (xs ++ a :: l2) = x :: (xs ++ v :: l2)
    rw [ih]

theorem setIdx_append_eq {α : Type} (n : Nat) (l1 : List α) (a v : α) (l2 : List α)
    (h : l1.length = n) : setIdx n v (l1 ++ a :: l2) = l1 ++ v :: l2 := by
  subst h
  exact setIdx_append_len l1 a v l2

theorem insertColumnAt_ok (rows : Grid) (header_r table_end ins : Nat)
    (new_col_name : String)
    (hh : header_r < rows.length) (hht : header_r < table_end) (hte : table_end ≤ rows.length)
    (hname : pyStrip new_col_name = new_col_name) (hne : new_col_name ≠ "")
    (habs : ∀ c ∈ rows.getD header_r [], pyStrip c ≠ new_col_name) :
    insertedColumnOk rows (insertColumnAt rows header_r table_end ins new_col_name)
      header_r table_end ins new_col_name := by
  have hinsle : ∀ row : Row, ins ≤ (pad_row row ins).length := by
    intro row; rw [pad_row_length]; omega
  have hdr2 : (insertColumnAt rows header_r table_end ins new_col_name).getD header_r []
      = setIdx ins new_col_name (insertBlankAt ins (rows.getD header_r [])) := by
    unfold insertColumnAt
    rw [getD_modifyIdx_self _ header_r _ [] (by rw [rangeMap_length]; exact hh)]
    rw [getD_rangeMap_in _ _ rows (le_refl _) (by omega) hh]
  have hdata : ∀ r, header_r ≤ r → r < table_end → r ≠ header_r →
      (insertColumnAt rows header_r table_end ins new_col_name).getD r []
        = insertBlankAt ins (rows.getD r []) := by
    intro r hr1 hr2 hr3
    unfold insertColumnAt
    rw [getD_modifyIdx_ne _ _ [] hr3]
    rw [getD_rangeMap_in _ _ rows hr1 (by omega) (by omega)]
  have hq : ∀ q : Nat, pyStrip ((pad_row (rows.getD header_r []) ins).getD q "")
      ≠ new_col_name := by
    intro q
    rw [getD_pad_row]
    by_cases hqlen : q < (rows.getD header_r []).length
    · apply habs
      rw [List.getD_eq_getElem _ _ hqlen]
      exact List.getElem_mem hqlen
    · rw [List.getD_eq_default _ _ (by omega)]
      intro hcontra
      exact hne (by rw [← hcontra]; rfl)
  refine ⟨?_, ?_, ?_, ?_, ?_⟩
  · unfold insertColumnAt
    rw [modifyIdx_length, rangeMap_length]
  · intro r hr
    unfold insertColumnAt
    rw [getD_modifyIdx_ne _ _ [] (by omega)]
    rw [getD_rangeMap_out _ _ rows (by omega)]
  · intro r hr1 hr2
    by_cases hrh : r = header_r
    · subst hrh
      rw [hdr2, if_pos rfl]
      unfold insertBlankAt
      refine ⟨?_, ?_, ?_, ?_⟩
      · rw [getD_setIdx_self]
        rw [insertPy_length, pad_row_length]
        omega
      · rw [setIdx_length, insertPy_length, pad_row_length]
      · intro c hc
        rw [getD_setIdx_ne _ _ _ (by omega), getD_insertPy_lt _ _ _ hc (hinsle _),
          getD_pad_row]
      · intro c hc
        rw [getD_setIdx_ne _ _ _ (by omega), getD_insertPy_gt _ _ _ hc, getD_pad_row]
    · rw [hdata r hr1 hr2 hrh, if_neg hrh]
      unfold insertBlankAt
      refine ⟨?_, ?_, ?_, ?_⟩
      · rw [getD_insertPy_self _ _ _ _ (hinsle _)]
      · rw [insertPy_length, pad_row_length]
      · intro c hc
        rw [getD_insertPy_lt _ _ _ hc (hinsle _), getD_pad_row]
      · intro c hc
        rw [getD_insertPy_gt _ _ _ hc, getD_pad_row]
  · rw [hdr2]
    unfold insertBlankAt
    rw [insertPy_eq_append "" ins _ (hinsle _)]
    have htk : ((pad_row (rows.getD header_r []) ins).take ins).length = ins := by
      rw [List.length_take]
      have := hinsle (rows.getD header_r [])
      omega
    rw [setIdx_append_eq ins ((pad_row (rows.getD header_r []) ins).take ins) ""
      new_col_name ((pad_row (rows.getD header_r []) ins).drop ins) htk]
    rw [List.countP_append, List.countP_cons]
    have hpadmem : ∀ x ∈ pad_row (rows.getD header_r []) ins,
        pyStrip x ≠ new_col_name := by
      intro x hx
      unfold pad_row at hx
      rcases List.mem_append.mp hx with hx | hx
      · exact habs x hx
      · rw [List.eq_of_mem_replicate hx]
        intro hcontra
        exact hne (by rw [← hcontra]; rfl)
    have h0 : ((pad_row (rows.getD header_r []) ins).take ins).countP
        (fun c => pyStrip c = new_col_name) = 0 := by
      rw [List.countP_eq_zero]
      intro x hx
      simp [hpadmem x (List.mem_of_mem_take hx)]
    have h1 : ((pad_row (rows.getD header_r []) ins).drop ins).countP
        (fun c => pyStrip c = new_col_name) = 0 := by
      rw [List.countP_eq_zero]
      intro x hx
      simp [hpadmem x (List.mem_of_mem_drop hx)]
    rw [h0, h1]
    simp [hname]
  · have hlen2 : (setIdx ins new_col_name
        (insertBlankAt ins (rows.getD header_r []))).length
        = max (rows.getD header_r []).length ins + 1 := by
      unfold insertBlankAt
      rw [setIdx_length, insertPy_length, pad_row_length]
    rw [hdr2]
    apply header_col_get_last new_col_name hne _ ins
    · rw [hlen2]; omega
    · unfold insertBlankAt
      rw [getD_setIdx_self _ _ _ _ (by rw [insertPy_length, pad_row_length]; omega)]
      exact hname
    · intro m hm1 hm2
      unfold insertBlankAt
      rw [getD_setIdx_ne _ _ _ (by omega), getD_insertPy_gt _ _ _ hm1]
      exact hq (m - 1)

/-- C1: both ensure-column variants behave atomically: when the new column
name is already in the header map they return its existing index and
mutate nothing; when it is absent and the anchors exist, every row from
the header row through table_end gains a cell at the index right of the
left/only anchor (blank in data rows, the new name in the header), and a
second call for the same name is a no-op returning the same index with no
duplicate column. -/
theorem ensure_column_atomic (rows : Grid) (header_r table_start table_end : Nat)
    (left_col_name new_col_name right_col_name : String)
    (hh : header_r < rows.length) (hht : header_r < table_end) (hte : table_end ≤ rows.length)
    (hname : pyStrip new_col_name = new_col_name) (hne : new_col_name ≠ "") :
    (∀ i, header_col_get new_col_name (rows.getD header_r []) = some i →
       ensure_column_between rows header_r table_start table_end
           left_col_name new_col_name right_col_name = .ok (rows, i)
       ∧ ensure_column_after rows header_r table_end left_col_name new_col_name
           = .ok (rows, i))
    ∧ (header_col_get new_col_name (rows.getD header_r []) = none →
       (∀ li ri, header_col_get left_col_name (rows.getD header_r []) = some li →
          header_col_get right_col_name (rows.getD header_r []) = some ri →
          ensure_column_between rows header_r table_start table_end
              left_col_name new_col_name right_col_name
            = .ok (insertColumnAt rows header_r table_end (li + 1) new_col_name, li + 1)
          ∧ insertedColumnOk rows
              (insertColumnAt rows header_r table_end (li + 1) new_col_name)
              header_r table_end (li + 1) new_col_name
          ∧ ensure_column_between
              (insertColumnAt rows header_r table_end (li + 1) new_col_name)
              header_r table_start table_end left_col_name new_col_name right_col_name
            = .ok (insertColumnAt rows header_r table_end (li + 1) new_col_name, li + 1))
       ∧ (∀ ai, header_col_get left_col_name (rows.getD header_r []) = some ai →
          ensure_column_after rows header_r table_end left_col_name new_col_name
            = .ok (insertColumnAt rows header_r table_end (ai + 1) new_col_name, ai + 1)
          ∧ insertedColumnOk rows
              (insertColumnAt rows header_r table_end (ai + 1) new_col_name)
              header_r table_end (ai + 1) new_col_name
          ∧ ensure_column_after
              (insertColumnAt rows header_r table_end (ai + 1) new_col_name)
              header_r table_end left_col_name new_col_name
            = .ok (insertColumnAt rows header_r table_end (ai + 1) new_col_name, ai + 1))) := by
  constructor
  · intro i hi
    constructor
    · unfold ensure_column_between
      simp only [hi]
    · unfold ensure_column_after
      simp only [hi]
  · intro habs
    have habs' : ∀ c ∈ rows.getD header_r [], pyStrip c ≠ new_col_name :=
      (header_col_get_none_iff new_col_name hne _).mp habs
    constructor
    · intro li ri hleft hright
      have hok := insertColumnAt_ok rows header_r table_end (li + 1) new_col_name
        hh hht hte hname hne habs'
      refine ⟨?_, hok, ?_⟩
      · unfold ensure_column_between
        simp only [habs, hleft, hright]
      · unfold ensure_column_between
        simp only [hok.2.2.2.2]
    · intro ai hanchor
      have hok := insertColumnAt_ok rows header_r table_end (ai + 1) new_col_name
        hh hht hte hname hne habs'
      refine ⟨?_, hok, ?_⟩
      · unfold ensure_column_after
        simp only [habs, hanchor]
      · unfold ensure_column_after
        simp only [hok.2.2.2.2]

/-- Witness for C1: inserting "Zone" between "comment" and "Wind" in a
two-row table, then calling again: the second call is a no-op at index 1. -/
theorem ensure_column_atomic_witness :
    ensure_column_between [["comment", "Wind", "Validated"], ["a", "b", "c"]] 0 1 2
        "comment" "Zone" "Wind"
      = .ok (insertColumnAt [["comment", "Wind", "Validated"], ["a", "b", "c"]] 0 2 1 "Zone", 1)
    ∧ ensure_column_between
        (insertColumnAt [["comment", "Wind", "Validated"], ["a", "b", "c"]] 0 2 1 "Zone")
        0 1 2 "comment" "Zone" "Wind"
      = .ok (insertColumnAt [["comment", "Wind", "Validated"], ["a", "b", "c"]] 0 2 1 "Zone", 1)
    ∧ insertColumnAt [["comment", "Wind", "Validated"], ["a", "b", "c"]] 0 2 1 "Zone"
      = [["comment", "Zone", "Wind", "Validated"], ["a", "", "b", "c"]] := by
  have h := ((ensure_column_atomic [["comment", "Wind", "Validated"], ["a", "b", "c"]]
    0 1 2 "comment" "Zone" "Wind" (by decide) (by decide) (by decide) (by decide)
    (by decide)).2 (by decide)).1 0 1 (by decide) (by decide)
  exact ⟨h.1, h.2.2, by decide⟩

/-! ### Claim C2: idempotence of the marker-canonicalization step -/

/-- C2 counterexample: two consecutive bare "#ERROR!" markers before a
"Periodic" row.  The first pass labels only the second marker; the second
pass then also labels the first (its next non-blank row now mentions
Periodic), so running the step twice differs from running it once. -/
theorem canon_markers_not_idempotent_cex :
    canonMarkers (canonMarkers [["#ERROR!"], ["#ERROR!"], ["Periodic"]])
      ≠ canonMarkers [["#ERROR!"], ["#ERROR!"], ["Periodic"]] := by decide

theorem labelRow_nil (rest : List Row) : labelRow [] rest = [] := by
  unfold labelRow
  rw [if_neg (by decide)]

theorem labelRow_not_bare (row : Row) (rest : List Row)
    (h : isBareMarker row = false) : labelRow row rest = row := by
  unfold labelRow
  rw [if_neg (by simp [h])]

theorem inferMarker_facts (nr l : Row) (h : inferMarker nr = some l) :
    isBareMarker l = false ∧ normRow l = l ∧ rowNonblank l = true := by
  unfold inferMarker at h
  repeat' split at h
  all_goals cases h
  all_goals exact ⟨by decide, by decide, by decide⟩

theorem bare_nonblank (row : Row) (h : isBareMarker row = true) :
    rowNonblank row = true := by
  unfold isBareMarker at h
  simp only [Bool.and_eq_true, decide_eq_true_eq] at h
  obtain ⟨h1, _⟩ := h
  cases row with
  | nil => exact absurd h1 (by decide)
  | cons c cs =>
    unfold rowNonblank
    simp only [List.any_cons, Bool.or_eq_true]
    left
    simp only [List.headD_cons] at h1
    simp [h1]

theorem labelRow_nonblank (row : Row) (rest : List Row) :
    rowNonblank (labelRow row rest) = rowNonblank row := by
  cases hb : isBareMarker row with
  | false => rw [labelRow_not_bare row rest hb]
  | true =>
    unfold labelRow
    rw [if_pos hb]
    cases hf : rest.find? rowNonblank with
    | none => rfl
    | some nr =>
      simp only [hf]
      cases hi : inferMarker nr with
      | none => simp [hi]
      | some l =>
        simp only [hi, Option.getD_some]
        rw [(inferMarker_facts nr l hi).2.2, bare_nonblank row hb]

theorem normRow_idem (row : Row) : normRow (normRow row) = normRow row := by
  cases row with
  | nil => rfl
  | cons c cs =>
    by_cases h1 : pyStrip ((c :: cs).headD "") = "====="
    · have hstep : normRow (c :: cs) = setIdx 0 "#ERROR!" (c :: cs) := by
        unfold normRow
        rw [if_neg (by simp), if_pos h1]
      rw [hstep]
      show normRow ("#ERROR!" :: cs) = "#ERROR!" :: cs
      unfold normRow
      rw [if_neg (by simp), if_neg (by simp only [List.headD_cons]; decide),
        if_neg (by simp only [List.headD_cons]; decide)]
    · by_cases h2 : (pyStartsWith (pyStrip ((c :: cs).headD "")) "=====" &&
          !containsSub (pyStrip ((c :: cs).headD "")) ",") = true
      · have hstep : normRow (c :: cs)
            = ["#ERROR!", pyStrip (removeEq5 (pyStrip ((c :: cs).headD "")))] := by
          unfold normRow
          rw [if_neg (by simp), if_neg h1, if_pos h2]
        rw [hstep]
        unfold normRow
        rw [if_neg (by simp), if_neg (by simp only [List.headD_cons]; decide),
          if_neg (by simp only [List.headD_cons]; decide)]
      · have hstep : normRow (c :: cs) = c :: cs := by
          unfold normRow
          rw [if_neg (by simp), if_neg h1, if_neg h2]
        rw [hstep]
        exact hstep

theorem normRow_error_fix (row : Row) (h : pyStrip (row.headD "") = "#ERROR!") :
    normRow row = row := by
  cases row with
  | nil => rfl
  | cons c cs =>
    simp only [List.headD_cons] at h
    unfold normRow
    rw [if_neg (by simp), if_neg (by simp only [List.headD_cons]; rw [h]; decide),
      if_neg (by simp only [List.headD_cons]; rw [h]; decide)]

theorem norm_members_fixed (g : Grid) :
    ∀ row ∈ normalize_section_markers g, normRow row = row := by
  intro row hrow
  unfold normalize_section_markers at hrow
  obtain ⟨r0, _, rfl⟩ := List.mem_map.mp hrow
  exact normRow_idem r0

theorem norm_of_label_fixed (g : Grid) (h : ∀ row ∈ g, normRow row = row) :
    normalize_section_markers (label_bare_error_markers g)
      = label_bare_error_markers g := by
  induction g with
  | nil => rfl
  | cons r rs ih =>
    show (labelRow r rs :: label_bare_error_markers rs).map normRow = _
    rw [List.map_cons]
    have h1 : normRow (labelRow r rs) = labelRow r rs := by
      cases hb : isBareMarker r with
      | false =>
        rw [labelRow_not_bare r rs hb]
        exact h r (List.mem_cons_self r rs)
      | true =>
        unfold labelRow
        rw [if_pos hb]
        cases hf : rs.find? rowNonblank with
        | none =>
          simp only [hf]
          exact h r (List.mem_cons_self r rs)
        | some nr =>
          simp only [hf]
          cases hi : inferMarker nr with
          | none =>
            simp only [hi, Option.getD_none]
            exact h r (List.mem_cons_self r rs)
          | some l =>
            simp only [hi, Option.getD_some]
            exact (inferMarker_facts nr l hi).2.1
    have h2 := ih (fun row hrow => h row (List.mem_cons_of_mem r hrow))
    unfold normalize_section_markers at h2
    rw [h1, h2]
    rfl

theorem find?_label (rs : List Row)
    (h : ∀ nr, rs.find? rowNonblank = some nr → isBareMarker nr = false) :
    (label_bare_error_markers rs).find? rowNonblank = rs.find? rowNonblank := by
  induction rs with
  | nil => rfl
  | cons r rs ih =>
    show (labelRow r rs :: label_bare_error_markers rs).find? rowNonblank = _
    rw [List.find?_cons, List.find?_cons, labelRow_nonblank]
    cases hnb : rowNonblank r with
    | true =>
      have hr : isBareMarker r = false := by
        apply h r
        rw [List.find?_cons, hnb]
      rw [labelRow_not_bare r rs hr]
    | false =>
      exact ih (fun nr hf => h nr (by rw [List.find?_cons, hnb]; exact hf))

theorem label_twice (g : Grid) (hgood : goodMarkers g = true) :
    label_bare_error_markers (label_bare_error_markers g)
      = label_bare_error_markers g := by
  induction g with
  | nil => rfl
  | cons r rs ih =>
    unfold goodMarkers at hgood
    rw [Bool.and_eq_true] at hgood
    obtain ⟨hc, hgs⟩ := hgood
    show labelRow (labelRow r rs) (label_bare_error_markers rs)
        :: label_bare_error_markers (label_bare_error_markers rs)
      = labelRow r rs :: label_bare_error_markers rs
    rw [ih hgs]
    congr 1
    cases hb : isBareMarker r with
    | false =>
      rw [labelRow_not_bare _ _ hb, labelRow_not_bare _ _ hb]
    | true =>
      have hnb : ∀ nr, rs.find? rowNonblank = some nr → isBareMarker nr = false := by
        intro nr hf
        rw [hb] at hc
        simp only [Bool.not_true, Bool.false_or] at hc
        simp only [hf] at hc
        simp only [Bool.not_eq_true'] at hc
        exact hc
      have hfl := find?_label rs hnb
      cases hf : rs.find? rowNonblank with
      | none =>
        have h1 : labelRow r rs = r := by
          unfold labelRow
          rw [if_pos hb]
          simp only [hf]
        rw [h1]
        unfold labelRow
        rw [if_pos hb]
        simp only [hfl, hf]
      | some nr =>
        cases hi : inferMarker nr with
        | none =>
          have h1 : labelRow r rs = r := by
            unfold labelRow
            rw [if_pos hb]
            simp only [hf, hi, Option.getD_none]
          rw [h1]
          unfold labelRow
          rw [if_pos hb]
          simp only [hfl, hf, hi, Option.getD_none]
        | some l =>
          have h1 : labelRow r rs = l := by
            unfold labelRow
            rw [if_pos hb]
            simp only [hf, hi, Option.getD_some]
          rw [h1]
          exact labelRow_not_bare _ _ (inferMarker_facts nr l hi).1

theorem label_getD (g : Grid) :
    ∀ i, (label_bare_error_markers g).getD i []
      = labelRow (g.getD i []) (g.drop (i + 1)) := by
  induction g with
  | nil =>
    intro i
    exact (labelRow_nil _).symm
  | cons r rs ih =>
    intro i
    cases i with
    | zero => rfl
    | succ j =>
      show (label_bare_error_markers rs).getD j [] = _
      exact ih j

theorem norm_getD (g : Grid) :
    ∀ i, (normalize_section_markers g).getD i [] = normRow (g.getD i []) := by
  induction g with
  | nil => intro i; rfl
  | cons r rs ih =>
    intro i
    cases i with
    | zero => rfl
    | succ j => exact ih j

/-- C2 amended: the marker-canonicalization step (normalize then label) is
idempotent on every grid in which no bare "#ERROR!" marker of the
normalized grid has another bare marker as its next non-blank row; rows
already in canonical labeled form ("#ERROR!" first cell with a non-blank
section cell) and empty rows always pass through unchanged. -/
theorem canon_markers_idempotent (rows : Grid)
    (hgood : goodMarkers (normalize_section_markers rows) = true) :
    canonMarkers (canonMarkers rows) = canonMarkers rows
    ∧ (∀ i, pyStrip ((rows.getD i []).headD "") = "#ERROR!" →
        pyStrip ((rows.getD i []).getD 1 "") ≠ "" →
        (canonMarkers rows).getD i [] = rows.getD i [])
    ∧ (∀ i, rows.getD i [] = [] → (canonMarkers rows).getD i [] = []) := by
  refine ⟨?_, ?_, ?_⟩
  · show label_bare_error_markers (normalize_section_markers
        (label_bare_error_markers (normalize_section_markers rows)))
      = label_bare_error_markers (normalize_section_markers rows)
    rw [norm_of_label_fixed _ (norm_members_fixed rows)]
    exact label_twice _ hgood
  · intro i h1 h2
    show (label_bare_error_markers (normalize_section_markers rows)).getD i []
      = rows.getD i []
    rw [label_getD, norm_getD, normRow_error_fix _ h1]
    have hb : isBareMarker (rows.getD i []) = false := by
      cases hx : isBareMarker (rows.getD i []) with
      | false => rfl
      | true =>
        unfold isBareMarker at hx
        simp only [Bool.and_eq_true, decide_eq_true_eq] at hx
        exact absurd hx.2 h2
    exact labelRow_not_bare _ _ hb
  · intro i h
    show (label_bare_error_markers (normalize_section_markers rows)).getD i [] = []
    rw [label_getD, norm_getD, h]
    show labelRow (normRow []) _ = []
    rw [show normRow [] = [] from rfl, labelRow_nil]

/-- Witness for C2 (amended): a grid whose "=====" marker normalizes to a
labeled "#ERROR!" marker; the canonicalization step is idempotent on it. -/
theorem canon_markers_idempotent_witness :
    goodMarkers (normalize_section_markers
        [["#ERROR!", "Crew Info"], [], ["===== Piece"]]) = true
    ∧ canonMarkers (canonMarkers [["#ERROR!", "Crew Info"], [], ["===== Piece"]])
        = canonMarkers [["#ERROR!", "Crew Info"], [], ["===== Piece"]] :=
  ⟨by decide,
   (canon_markers_idempotent [["#ERROR!", "Crew Info"], [], ["===== Piece"]] (by decide)).1⟩

/-! ### Claim C7: rectangular, sanitized commit output -/

/-- C7: whenever the commit pipeline accepts a grid, the output grid is
globally rectangular (every row's length equals the maximum row length)
and no cell of it contains a comma or a double-quote character. -/
theorem process_output_rectangular_sanitized (rows : Grid)
    (cox_uni rig_info wind stream temperature zone : String)
    (wget : String → Option String) (out : Grid)
    (h : processGrid rows cox_uni rig_info wind stream temperature zone wget = .ok out) :
    rectangularB out = true ∧ cleanB out = true := by
  unfold processGrid at h
  have h' : (match apply_updates (canonMarkers (trim_to_first_export rows)) cox_uni
      rig_info wind stream temperature zone wget with
    | Except.error e => (Except.error e : Except String Grid)
    | Except.ok u =>
      Except.ok ((sanitize_for_naive_split (canonMarkers u)).map
        (fun r => pad_row r (maxLen (sanitize_for_naive_split (canonMarkers u))))))
      = Except.ok out := h
  clear h
  cases happ : apply_updates (canonMarkers (trim_to_first_export rows)) cox_uni rig_info
      wind stream temperature zone wget with
  | error e => rw [happ] at h'; cases h'
  | ok u =>
    rw [happ] at h'
    have hout : out = (sanitize_for_naive_split (canonMarkers u)).map
        (fun r => pad_row r (maxLen (sanitize_for_naive_split (canonMarkers u)))) :=
      (Except.ok.inj h').symm
    set s := sanitize_for_naive_split (canonMarkers u) with hs
    have hall : ∀ row ∈ s.map (fun r => pad_row r (maxLen s)), row.length = maxLen s := by
      intro row hrow
      obtain ⟨r0, hr0, rfl⟩ := List.mem_map.mp hrow
      rw [pad_row_length]
      exact Nat.max_eq_right (length_le_maxLen hr0)
    constructor
    · rw [hout]
      unfold rectangularB
      rw [List.all_eq_true]
      intro r hr
      rw [beq_iff_eq]
      have hne : s.map (fun r => pad_row r (maxLen s)) ≠ [] := by
        intro hnil
        rw [hnil] at hr
        cases hr
      rw [maxLen_eq_of_all hall hne]
      exact hall r hr
    · rw [hout]
      unfold cleanB
      rw [List.all_eq_true]
      intro r hr
      rw [List.all_eq_true]
      intro c hc
      rw [List.all_eq_true]
      intro ch hch
      simp only [Bool.and_eq_true, decide_eq_true_eq, ne_eq]
      obtain ⟨r0, hr0, rfl⟩ := List.mem_map.mp hr
      unfold pad_row at hc
      rcases List.mem_append.mp hc with hc | hc
      · rw [hs] at hr0
        unfold sanitize_for_naive_split at hr0
        obtain ⟨q0, _, rfl⟩ := List.mem_map.mp hr0
        obtain ⟨c0, _, rfl⟩ := List.mem_map.mp hc
        have := sanCell_clean c0 ch hch
        exact ⟨this.1, this.2⟩
      · rw [List.eq_of_mem_replicate hc] at hch
        exact absurd hch (List.not_mem_nil ch)

/-- Witness for C7: a full valid export grid (Cox cell, crew table with
seats 1-8, piece table) is accepted and yields rectangular sanitized
output. -/
theorem process_output_rectangular_sanitized_witness :
    ∃ out, processGrid
        [["Cox"],
         ["Position", "Name", "Abbr", "Weight"],
         ["1", "A", "aa111", ""], ["2", "B", "aa111", ""],
         ["3", "C", "aa111", ""], ["4", "D", "aa111", ""],
         ["5", "E", "aa111", ""], ["6", "F", "aa111", ""],
         ["7", "G", "aa111", ""], ["8", "H", "aa111", ""],
         ["cox", "ZZ"],
         ["Pace", "comment", "Wind", "Stream", "Validated"],
         ["1:31.4", "", "", "", ""]]
        "COXID" "RIG" "3" "4" "5" "T1" (fun k => if k = "aa111" then some "70" else none)
      = .ok out
    ∧ rectangularB out = true ∧ cleanB out = true := by
  have hchk : (match processGrid
      [["Cox"],
       ["Position", "Name", "Abbr", "Weight"],
       ["1", "A", "aa111", ""], ["2", "B", "aa111", ""],
       ["3", "C", "aa111", ""], ["4", "D", "aa111", ""],
       ["5", "E", "aa111", ""], ["6", "F", "aa111", ""],
       ["7", "G", "aa111", ""], ["8", "H", "aa111", ""],
       ["cox", "ZZ"],
       ["Pace", "comment", "Wind", "Stream", "Validated"],
       ["1:31.4", "", "", "", ""]]
      "COXID" "RIG" "3" "4" "5" "T1" (fun k => if k = "aa111" then some "70" else none) with
    | .ok _ => true
    | .error _ => false) = true := by decide
  cases hres : processGrid
      [["Cox"],
       ["Position", "Name", "Abbr", "Weight"],
       ["1", "A", "aa111", ""], ["2", "B", "aa111", ""],
       ["3", "C", "aa111", ""], ["4", "D", "aa111", ""],
       ["5", "E", "aa111", ""], ["6", "F", "aa111", ""],
       ["7", "G", "aa111", ""], ["8", "H", "aa111", ""],
       ["cox", "ZZ"],
       ["Pace", "comment", "Wind", "Stream", "Validated"],
       ["1:31.4", "", "", "", ""]]
      "COXID" "RIG" "3" "4" "5" "T1" (fun k => if k = "aa111" then some "70" else none) with
  | error e => rw [hres] at hchk; cases hchk
  | ok u =>
    exact ⟨u, rfl, process_output_rectangular_sanitized _ "COXID" "RIG" "3" "4" "5" "T1"
      (fun k => if k = "aa111" then some "70" else none) u hres⟩
